import Mathlib

/-!
Verification development for the rollup machine manager
(src/rollup-machine-manager.cpp).

The manager hosts sessions, each driving a machine server through inputs
grouped into epochs.  This file gives a shallow embedding of the data
model and of the handler logic relevant to the stated properties:
machine integers are Nat with explicit reduction modulo 2 ^ 64 where the
source relies on uint64_t wrap-around; fallible handler code returns a
status code together with the (possibly updated) session map; the
asynchronous machine-server replies are passed in as explicit oracle
data.  The Merkle accumulator and the keccak hasher are external
libraries of the source (not part of the repository), so they are
modelled from the specification contract, parameterised by an arbitrary
node-combining function.
-/

namespace RollupMachineManager

/-! ## Status codes

The grpc status codes used by the manager.  Messages carried along with
the codes do not influence any control flow, so a status is modelled by
its code alone. -/

inductive StatusCode where
  | ok
  | invalid_argument
  | already_exists
  | failed_precondition
  | out_of_range
  | aborted
  | data_loss
  | resource_exhausted
  | internal
  | deadline_exceeded
deriving DecidableEq, Repr

/-- UINT64_MAX, the overflow guard value for epoch indices. -/
def UINT64_MAX : Nat := 2 ^ 64 - 1

/-! ## Hashes and constants (source lines 239-250) -/

/-- A hash is a fixed 32-byte value; bytes are modelled as Nat. -/
abbrev hash_t : Type := List Nat

def LOG2_ROOT_SIZE : Nat := 37
def LOG2_KECCAK_SIZE : Nat := 5
def KECCAK_SIZE : Nat := 2 ^ LOG2_KECCAK_SIZE
def INPUT_METADATA_LENGTH : Nat := 128
def VOUCHER_PAYLOAD_ADDRESS_LENGTH : Nat := 32
def VOUCHER_PAYLOAD_OFFSET_LENGTH : Nat := 32
def VOUCHER_PAYLOAD_LENGTH_LENGTH : Nat := 32
def VOUCHER_PAYLOAD_MINIMUM_LENGTH : Nat :=
  VOUCHER_PAYLOAD_ADDRESS_LENGTH + VOUCHER_PAYLOAD_OFFSET_LENGTH + VOUCHER_PAYLOAD_LENGTH_LENGTH
def NOTICE_PAYLOAD_OFFSET_LENGTH : Nat := 32
def NOTICE_PAYLOAD_LENGTH_LENGTH : Nat := 32
def NOTICE_PAYLOAD_MINIMUM_LENGTH : Nat :=
  NOTICE_PAYLOAD_OFFSET_LENGTH + NOTICE_PAYLOAD_LENGTH_LENGTH

/-- The all-zero 32-byte hash, used as the leaf for skipped inputs
(source lines 1999-2000). -/
def zero_hash : hash_t := List.replicate 32 0

/-! ## Merkle accumulator

Modelled from the spec: the complete_merkle_tree library is an external
collaborator (spec section 1 and 4.1).  A tree of depth d over leaf
hashes is represented by the ordered list of leaves pushed so far;
unpopulated leaves hash as zero.  All operations are parameterised by
the node-combining function, standing for keccak of the two children. -/

/-- Root hash of the all-zero subtree of the given depth. -/
def zero_root (combine : hash_t → hash_t → hash_t) : Nat → hash_t
  | 0 => zero_hash
  | d + 1 => combine (zero_root combine d) (zero_root combine d)

/-- Modelled from the spec: root of the depth-d subtree whose populated
leaves are the given list (at most 2 ^ d of them); missing leaves hash
as zero. -/
def mroot (combine : hash_t → hash_t → hash_t) : Nat → List hash_t → hash_t
  | 0, l => l.headD zero_hash
  | d + 1, l =>
    if l.isEmpty then zero_root combine (d + 1)
    else combine (mroot combine d (l.take (2 ^ d))) (mroot combine d (l.drop (2 ^ d)))

/-- Modelled from the spec: sibling hashes along the path from the root
down to leaf index i in a depth-d tree, listed from the root level
downwards. -/
def mproof (combine : hash_t → hash_t → hash_t) : Nat → List hash_t → Nat → List hash_t
  | 0, _, _ => []
  | d + 1, l, i =>
    if i < 2 ^ d then
      mroot combine d (l.drop (2 ^ d)) :: mproof combine d (l.take (2 ^ d)) i
    else
      mroot combine d (l.take (2 ^ d)) :: mproof combine d (l.drop (2 ^ d)) (i - 2 ^ d)

/-- Recompute the root implied by a target hash at leaf index i and a
top-down sibling list in a depth-d tree. -/
def mverify (combine : hash_t → hash_t → hash_t) :
    Nat → Nat → hash_t → List hash_t → hash_t
  | 0, _, target, _ => target
  | _ + 1, _, target, [] => target
  | d + 1, i, target, sib :: rest =>
    if i < 2 ^ d then combine (mverify combine d i target rest) sib
    else combine sib (mverify combine d (i - 2 ^ d) target rest)

/-- Merkle tree proof (merkle-tree-proof.h, external): target hash and
address, root hash, and the sibling path. -/
structure proof_t where
  target_address : Nat
  log2_target_size : Nat
  target_hash : hash_t
  log2_root_size : Nat
  root_hash : hash_t
  sibling_hashes : List hash_t
deriving DecidableEq, Repr

/-- Modelled from the spec (section 4.1): get_proof of the epoch
accumulator at a keccak-aligned leaf address.  Only leaf-level proofs
(log2_size = LOG2_KECCAK_SIZE) are requested by the manager. -/
def tree_get_proof (combine : hash_t → hash_t → hash_t) (leaves : List hash_t)
    (address : Nat) (log2_size : Nat) : proof_t :=
  let i := address >>> LOG2_KECCAK_SIZE
  { target_address := address
    log2_target_size := log2_size
    target_hash := leaves.getD i zero_hash
    log2_root_size := LOG2_ROOT_SIZE
    root_hash := mroot combine (LOG2_ROOT_SIZE - LOG2_KECCAK_SIZE) leaves
    sibling_hashes := mproof combine (LOG2_ROOT_SIZE - LOG2_KECCAK_SIZE) leaves i }

/-- A leaf-level proof verifies when recomputing the root from its
target hash and sibling path yields its recorded root hash. -/
def proof_verifies (combine : hash_t → hash_t → hash_t) (p : proof_t) : Prop :=
  mverify combine (LOG2_ROOT_SIZE - LOG2_KECCAK_SIZE) (p.target_address >>> LOG2_KECCAK_SIZE)
    p.target_hash p.sibling_hashes = p.root_hash

/-! ## Data model (source lines 252-370) -/

/-- Reason why an input might have been skipped (source line 287). -/
inductive input_skip_reason where
  | cycle_limit_exceeded
  | requested_by_machine
  | machine_halted
  | time_limit_exceeded
deriving DecidableEq, Repr

/-- Voucher and notice metadata: the keccak of the output and its proof
inside the corresponding hashes memory range (source lines 263-266). -/
structure keccak_type where
  keccak : hash_t
  keccak_in_hashes : proof_t
deriving DecidableEq, Repr

/-- A voucher generated by a processed input (source lines 269-273). -/
structure voucher_type where
  address : hash_t
  payload : List Nat
  hash : Option keccak_type
deriving DecidableEq, Repr

/-- A notice generated by a processed input (source lines 276-279). -/
structure notice_type where
  payload : List Nat
  hash : Option keccak_type
deriving DecidableEq, Repr

/-- A report generated by a processed input (source lines 282-284). -/
structure report_type where
  payload : List Nat
deriving DecidableEq, Repr

/-- Results of an accepted input (source lines 290-295). -/
structure input_result_type where
  voucher_hashes_in_machine : proof_t
  vouchers : List voucher_type
  notice_hashes_in_machine : proof_t
  notices : List notice_type
deriving DecidableEq, Repr

/-- The std::variant of results or skip reason (source line 303). -/
inductive processed_kind where
  | result (r : input_result_type)
  | skipped (reason : input_skip_reason)
deriving DecidableEq, Repr

/-- A processed input (source lines 298-305). -/
structure processed_input_type where
  input_index : Nat
  most_recent_machine_hash : hash_t
  voucher_hashes_in_epoch : proof_t
  notice_hashes_in_epoch : proof_t
  processed : processed_kind
  reports : List report_type
deriving DecidableEq, Repr

/-- State of epoch (source line 308). -/
inductive epoch_state where
  | active
  | finished
deriving DecidableEq, Repr

/-- An input queued for processing (source lines 253-260).  The
metadata constructor copies the request bytes into a 128-byte
zero-initialised array. -/
structure input_type where
  payload : List Nat
  metadata : List Nat
deriving DecidableEq, Repr

/-- An epoch (source lines 314-321).  The two Merkle accumulators are
represented by their ordered leaf lists. -/
structure epoch_type where
  epoch_index : Nat
  state : epoch_state
  vouchers_tree : List hash_t
  notices_tree : List hash_t
  processed_inputs : List processed_input_type
  pending_inputs : List input_type
deriving DecidableEq, Repr

instance : Inhabited epoch_type :=
  ⟨{ epoch_index := 0, state := .active, vouchers_tree := [], notices_tree := [],
     processed_inputs := [], pending_inputs := [] }⟩

/-- Deadlines for server tasks, in milliseconds (source lines 324-334). -/
structure deadline_config_type where
  checkin : Nat
  update_merkle_tree : Nat
  advance_state : Nat
  advance_state_increment : Nat
  inspect_state : Nat
  inspect_state_increment : Nat
  machine : Nat
  store : Nat
  fast : Nat
deriving DecidableEq, Repr

/-- Cycle limits for server tasks (source lines 346-351). -/
structure cycles_config_type where
  max_advance_state : Nat
  advance_state_increment : Nat
  max_inspect_state : Nat
  inspect_state_increment : Nat
deriving DecidableEq, Repr

/-- A session (source lines 354-370).  The server stub, process group
and address are external handles; of the memory ranges only the
rx-buffer length is consulted by the embedded handlers, so it is kept
as a plain field. -/
structure session_type where
  id : String
  session_lock : Bool
  processing_lock : Bool
  tainted : Bool
  taint_status : StatusCode
  current_mcycle : Nat
  active_epoch_index : Nat
  max_input_payload_length : Nat
  rx_buffer_length : Nat
  epochs : List (Nat × epoch_type)
  server_deadline : deadline_config_type
  server_cycles : cycles_config_type
deriving DecidableEq, Repr

/-- The in-memory session store: association list keyed by session id,
standing for the unordered_map of the handler context (source line 426). -/
abbrev sessions_t := List (String × session_type)

/-- First value bound to a key in an association list. -/
def afind {α β : Type} [DecidableEq α] (k : α) : List (α × β) → Option β
  | [] => none
  | (a, b) :: t => if a = k then some b else afind k t

/-- Replace the value bound to a key in an association list. -/
def aupdate {α β : Type} [DecidableEq α] (k : α) (v : β) (l : List (α × β)) :
    List (α × β) :=
  l.map (fun p => if p.1 = k then (k, v) else p)

/-- Remove a key from an association list. -/
def aerase {α β : Type} [DecidableEq α] (k : α) (l : List (α × β)) : List (α × β) :=
  l.filter (fun p => p.1 ≠ k)

/-! ## Memory-range codec (source lines 1492-1555) -/

/-- Checks if all byte values are null (source lines 1496-1505). -/
def is_null : List Nat → Bool
  | [] => true
  | b :: t => if b ≠ 0 then false else is_null t

/-- One iteration of the count_null_terminated_entries while loop
(source lines 1511-1522).  Each iteration that recurses consumes at
least one byte when the entry length is non-zero, so the loop
terminates within data.length iterations; the first argument makes
that termination measure explicit while keeping each iteration
verbatim. -/
def count_null_terminated_entries_go (entry_length : Nat) : Nat → List Nat → Nat
  | 0, _ => 0
  | fuel + 1, data =>
    if entry_length ≤ data.length then
      if is_null (data.take entry_length) then 0
      else if entry_length = 0 then 0
      else 1 + count_null_terminated_entries_go entry_length fuel (data.drop entry_length)
    else 0

/-- Counts entries until the first null entry (source lines 1507-1522).
The source walks the string while a complete entry remains, returning
the running count at the first all-zero entry; a trailing fragment
shorter than one entry is never examined. -/
def count_null_terminated_entries (data : List Nat) (entry_length : Nat) : Nat :=
  count_null_terminated_entries_go entry_length data.length data

/-- Iteration worker for complete_entries, with the same explicit
termination measure as the counting loop. -/
def complete_entries_go (entry_length : Nat) : Nat → List Nat → List (List Nat)
  | 0, _ => []
  | fuel + 1, data =>
    if entry_length ≤ data.length ∧ entry_length ≠ 0 then
      data.take entry_length :: complete_entries_go entry_length fuel (data.drop entry_length)
    else []

/-- The complete entry-sized chunks of a byte string, in order; a
trailing fragment is discarded.  Spec-side companion of
count_null_terminated_entries. -/
def complete_entries (entry_length : Nat) (data : List Nat) : List (List Nat) :=
  complete_entries_go entry_length data.length data

/-- The two's-complement value, reduced modulo 2 ^ 64, of one term
byte << 8 * i of the get_payload_length loop.  In the source the byte
is promoted to a 32-bit int before the shift: the result is truncated
to 32 bits (the x86 shifter also masks the count to five bits), and a
negative 32-bit result is sign-extended when added to the uint64_t
accumulator.  For shift counts below 31 with small bytes this is the
plain value byte * 2 ^ (8 * i). -/
def promote_shift_term (byte : Nat) (i : Nat) : Nat :=
  let v := byte * 2 ^ (8 * i % 32) % 2 ^ 32
  if v < 2 ^ 31 then v else v + (2 ^ 64 - 2 ^ 32)

/-- Converts a payload length field from 32-byte big-endian to a native
64-bit integer (source lines 1538-1555): none models the taint_session
throw with OUT_OF_RANGE when any of the upper 24 bytes is non-zero.
The loop runs exactly eight times (the iterator over a 32-byte field
never reaches begin), accumulating from the last byte upwards; the
per-iteration uint64_t wrap-around of the accumulator equals one final
reduction modulo 2 ^ 64. -/
def get_payload_length (field : List Nat) : Option Nat :=
  if is_null (field.take 24) = false then none
  else
    let b := fun j => field.getD (24 + j) 0
    some ((promote_shift_term (b 7) 0 + promote_shift_term (b 6) 1 +
           promote_shift_term (b 5) 2 + promote_shift_term (b 4) 3 +
           promote_shift_term (b 3) 4 + promote_shift_term (b 2) 5 +
           promote_shift_term (b 1) 6 + promote_shift_term (b 0) 7) % 2 ^ 64)

/-- The unsigned 64-bit integer encoded big-endian in the low 8 bytes
of a 32-byte length field: what the specification says the decoded
length is. -/
def be_uint64 (field : List Nat) : Nat :=
  let b := fun j => field.getD (24 + j) 0
  b 0 * 2 ^ 56 + b 1 * 2 ^ 48 + b 2 * 2 ^ 40 + b 3 * 2 ^ 32 +
  b 4 * 2 ^ 24 + b 5 * 2 ^ 16 + b 6 * 2 ^ 8 + b 7

/-! ## The per-input run loop (source lines 1418-1463 and 1845-1902) -/

/-- Response of the Run RPC of the machine server (cartesi-machine
proto, external). -/
structure RunResponse where
  mcycle : Nat
  tohost : Nat
  iflags_y : Bool
  iflags_x : Bool
  iflags_h : Bool
deriving DecidableEq, Repr

/-- Modelled from the spec: the yield reason codes come from the
external htif header (spec section 1 lists it as out of scope).  The
manager only compares them for equality, so all that matters here is
that the five codes are distinct. -/
def HTIF_YIELD_REASON_RX_ACCEPTED : Nat := 1
def HTIF_YIELD_REASON_RX_REJECTED : Nat := 2
def HTIF_YIELD_REASON_TX_VOUCHER : Nat := 3
def HTIF_YIELD_REASON_TX_NOTICE : Nat := 4
def HTIF_YIELD_REASON_TX_REPORT : Nat := 5

/-- The top 16 bits of tohost after the uint64_t shifts << 16 >> 48
(source line 1871). -/
def yield_reason (r : RunResponse) : Nat :=
  (r.tohost * 2 ^ 16 % 2 ^ 64) / 2 ^ 48

/-- Mutable state of the run loop of process_pending_inputs: the
current mcycle and the vouchers, notices and reports collected so far
(source lines 1850-1853). -/
structure LoopState where
  current_mcycle : Nat
  vouchers : List voucher_type
  notices : List notice_type
  reports : List report_type
deriving DecidableEq, Repr

/-- How the run loop ends. -/
inductive LoopResult where
  | outcome (skip : Option input_skip_reason) (st : LoopState)
  | tainted (code : StatusCode) (st : LoopState)
  | exhausted (st : LoopState)
deriving DecidableEq, Repr

/-- Final loop state of a loop result. -/
def LoopResult.state : LoopResult → LoopState
  | .outcome _ st => st
  | .tainted _ st => st
  | .exhausted st => st

/-- The per-input run loop of process_pending_inputs (source lines
1854-1902).  Each list element is the value of one run_input call
(source lines 1424-1463): some response when the machine yielded,
halted, or reached the cycle limit, none when the advance_state
wall-clock deadline expired.  The readers are oracles standing for the
tx-buffer reads performed by read_voucher, read_notice and read_report,
indexed by the number of outputs of that kind read so far; exhausted
marks a machine interaction outside the modelled trace. -/
def run_input_loop (max_mcycle : Nat) (readV : Nat → voucher_type)
    (readN : Nat → notice_type) (readR : Nat → report_type) :
    List (Option RunResponse) → LoopState → LoopResult
  | [], st => .exhausted st
  | none :: _, st => .outcome (some .time_limit_exceeded) st
  | some r :: rest, st =>
    if max_mcycle ≤ r.mcycle then .outcome (some .cycle_limit_exceeded) st
    else if r.iflags_h then .outcome (some .machine_halted) st
    else if r.iflags_y then
      if yield_reason r = HTIF_YIELD_REASON_RX_REJECTED then
        .outcome (some .requested_by_machine) st
      else if yield_reason r = HTIF_YIELD_REASON_RX_ACCEPTED then
        .outcome none st
      else .tainted .out_of_range st
    else if r.iflags_x = false then .tainted .internal st
    else
      let st1 :=
        if yield_reason r = HTIF_YIELD_REASON_TX_VOUCHER then
          { st with vouchers := st.vouchers ++ [readV st.vouchers.length] }
        else if yield_reason r = HTIF_YIELD_REASON_TX_NOTICE then
          { st with notices := st.notices ++ [readN st.notices.length] }
        else if yield_reason r = HTIF_YIELD_REASON_TX_REPORT then
          { st with reports := st.reports ++ [readR st.reports.length] }
        else st
      run_input_loop max_mcycle readV readN readR rest
        { st1 with current_mcycle := r.mcycle }

/-! ## The input-processing pipeline (source lines 1816-2016) -/

/-- Oracle data for processing one pending input: everything the
machine server supplies during one iteration of the
process_pending_inputs while loop. -/
structure InputTrace where
  responses : List (Option RunResponse)
  read_voucher : Nat → voucher_type
  read_notice : Nat → notice_type
  read_report : Nat → report_type
  voucher_hashes_in_machine : proof_t
  notice_hashes_in_machine : proof_t
  voucher_hashes_bytes : List Nat
  notice_hashes_bytes : List Nat
  keccak_in_voucher_hashes : Nat → proof_t
  keccak_in_notice_hashes : Nat → proof_t
  root_hash : hash_t

/-- The 32-byte entry at index k of a hashes memory range. -/
def hash_entry (bytes : List Nat) (k : Nat) : hash_t :=
  (bytes.drop (k * KECCAK_SIZE)).take KECCAK_SIZE

/-- The body of the process_pending_inputs while loop for a single
pending input (source lines 1827-2014), processing the front of the
queue given the oracle trace of machine replies.  none stands for the
taint_session throw (the tainting of the session): either inside the
run loop, or in the tree-size invariant checks (lines 1903-1910), or in
the voucher or notice count checks (lines 1928-1931 and 1957-1960); it
also covers a trace that does not determine the next Run reply.  The
snapshot, buffer-clearing, write and rollback server calls mutate only
the remote machine; their transport failures, which would also taint,
are not modelled. -/
def process_one_input (combine : hash_t → hash_t → hash_t)
    (cycles : cycles_config_type) (t : InputTrace) (e : epoch_type)
    (mcycle : Nat) : Option (epoch_type × Nat) :=
  let input_index := e.processed_inputs.length
  let max_mcycle := (mcycle + cycles.max_advance_state) % 2 ^ 64
  match run_input_loop max_mcycle t.read_voucher t.read_notice t.read_report
      t.responses { current_mcycle := mcycle, vouchers := [], notices := [], reports := [] } with
  | .exhausted _ => none
  | .tainted _ _ => none
  | .outcome skip st =>
    if e.vouchers_tree.length ≠ input_index then none
    else if e.notices_tree.length ≠ input_index then none
    else
      match skip with
      | none =>
        let vouchers_tree := e.vouchers_tree ++ [t.voucher_hashes_in_machine.target_hash]
        let voucher_hashes_in_epoch :=
          tree_get_proof combine vouchers_tree (input_index <<< LOG2_KECCAK_SIZE) LOG2_KECCAK_SIZE
        if count_null_terminated_entries t.voucher_hashes_bytes KECCAK_SIZE ≠ st.vouchers.length
        then none
        else
          let vouchers := st.vouchers.mapIdx (fun k v =>
            { v with hash := some { keccak := hash_entry t.voucher_hashes_bytes k,
                                    keccak_in_hashes := t.keccak_in_voucher_hashes k } })
          let notices_tree := e.notices_tree ++ [t.notice_hashes_in_machine.target_hash]
          let notice_hashes_in_epoch :=
            tree_get_proof combine notices_tree (input_index <<< LOG2_KECCAK_SIZE) LOG2_KECCAK_SIZE
          if count_null_terminated_entries t.notice_hashes_bytes KECCAK_SIZE ≠ st.notices.length
          then none
          else
            let notices := st.notices.mapIdx (fun k n =>
              { n with hash := some { keccak := hash_entry t.notice_hashes_bytes k,
                                      keccak_in_hashes := t.keccak_in_notice_hashes k } })
            some ({ e with
                      vouchers_tree := vouchers_tree
                      notices_tree := notices_tree
                      processed_inputs := e.processed_inputs ++
                        [{ input_index := input_index
                           most_recent_machine_hash := t.root_hash
                           voucher_hashes_in_epoch := voucher_hashes_in_epoch
                           notice_hashes_in_epoch := notice_hashes_in_epoch
                           processed := .result
                             { voucher_hashes_in_machine := t.voucher_hashes_in_machine
                               vouchers := vouchers
                               notice_hashes_in_machine := t.notice_hashes_in_machine
                               notices := notices }
                           reports := st.reports }]
                      pending_inputs := e.pending_inputs.drop 1 },
                  st.current_mcycle)
      | some reason =>
        let vouchers_tree := e.vouchers_tree ++ [zero_hash]
        let voucher_hashes_in_epoch :=
          tree_get_proof combine vouchers_tree (input_index <<< LOG2_KECCAK_SIZE) LOG2_KECCAK_SIZE
        let notices_tree := e.notices_tree ++ [zero_hash]
        let notice_hashes_in_epoch :=
          tree_get_proof combine notices_tree (input_index <<< LOG2_KECCAK_SIZE) LOG2_KECCAK_SIZE
        some ({ e with
                  vouchers_tree := vouchers_tree
                  notices_tree := notices_tree
                  processed_inputs := e.processed_inputs ++
                    [{ input_index := input_index
                       most_recent_machine_hash := t.root_hash
                       voucher_hashes_in_epoch := voucher_hashes_in_epoch
                       notice_hashes_in_epoch := notice_hashes_in_epoch
                       processed := .skipped reason
                       reports := st.reports }]
                  pending_inputs := e.pending_inputs.drop 1 },
              mcycle)

/-- The session current_mcycle after one pipeline iteration, as a
function of the entry mcycle and the trace alone: it moves to the final
loop mcycle exactly when the input is accepted (source lines 1985 and
2011). -/
def step_mcycle (cycles : cycles_config_type) (t : InputTrace) (mcycle : Nat) : Nat :=
  match run_input_loop ((mcycle + cycles.max_advance_state) % 2 ^ 64)
      t.read_voucher t.read_notice t.read_report t.responses
      { current_mcycle := mcycle, vouchers := [], notices := [], reports := [] } with
  | .outcome none st => st.current_mcycle
  | _ => mcycle

/-- The while loop of process_pending_inputs (source lines 1827-2015),
iterated over the traces of the successive pending inputs; none is a
taint. -/
def process_pending_inputs (combine : hash_t → hash_t → hash_t)
    (cycles : cycles_config_type) :
    List InputTrace → epoch_type → Nat → Option (epoch_type × Nat)
  | [], e, mcycle => some (e, mcycle)
  | t :: ts, e, mcycle =>
    match process_one_input combine cycles t e mcycle with
    | none => none
    | some (e1, mc1) => process_pending_inputs combine cycles ts e1 mc1

/-- Per-step monotonicity of the machine: along the given traces, every
Run reply reports an mcycle at least the session mcycle at the start of
its pipeline iteration (the machine mcycle counter never decreases). -/
def traces_mono (cycles : cycles_config_type) : Nat → List InputTrace → Prop
  | _, [] => True
  | mcycle, t :: ts =>
    (∀ o ∈ t.responses, ∀ r, o = some r → mcycle ≤ r.mcycle) ∧
      traces_mono cycles (step_mcycle cycles t mcycle) ts

/-! ## Epoch transitions (source lines 589-607) -/

/-- Marks the epoch finished and updates all proofs now that all leaves
are present (source lines 591-597): every processed input gets fresh
in-epoch proofs of leaf address input_index << LOG2_KECCAK_SIZE at
level LOG2_KECCAK_SIZE, taken from the final trees. -/
def finish_epoch (combine : hash_t → hash_t → hash_t) (e : epoch_type) : epoch_type :=
  { e with
      state := .finished
      processed_inputs := e.processed_inputs.map (fun i =>
        { i with
            voucher_hashes_in_epoch := tree_get_proof combine e.vouchers_tree
              (i.input_index <<< LOG2_KECCAK_SIZE) LOG2_KECCAK_SIZE
            notice_hashes_in_epoch := tree_get_proof combine e.notices_tree
              (i.input_index <<< LOG2_KECCAK_SIZE) LOG2_KECCAK_SIZE }) }

/-- Starts a new active epoch in the session (source lines 601-607). -/
def start_new_epoch (s : session_type) : session_type :=
  let idx := s.active_epoch_index + 1
  { s with
      active_epoch_index := idx
      epochs := s.epochs ++
        [(idx, { epoch_index := idx, state := .active, vouchers_tree := [],
                 notices_tree := [], processed_inputs := [], pending_inputs := [] })] }

/-! ## RPC requests -/

structure FinishEpochRequest where
  session_id : String
  active_epoch_index : Nat
  processed_input_count : Nat
deriving DecidableEq, Repr

structure AdvanceStateRequest where
  session_id : String
  active_epoch_index : Nat
  current_input_index : Nat
  input_metadata : List Nat
  input_payload : List Nat
deriving DecidableEq, Repr

structure StartSessionRequest where
  session_id : String
  active_epoch_index : Nat
  has_machine : Bool
  has_server_deadline : Bool
  server_deadline : deadline_config_type
  has_server_cycles : Bool
  server_cycles : cycles_config_type
deriving DecidableEq, Repr

/-! ## RPC responses -/

structure VersionResponse where
  major : Nat
  minor : Nat
  patch : Nat
deriving DecidableEq, Repr

structure GetSessionStatusResponse where
  session_id : String
  active_epoch_index : Nat
  epoch_index : List Nat
  taint_status : Option StatusCode
deriving DecidableEq, Repr

structure GetEpochStatusResponse where
  session_id : String
  epoch_index : Nat
  state : epoch_state
  processed_inputs : List processed_input_type
  pending_input_count : Nat
  taint_status : Option StatusCode
deriving DecidableEq, Repr

/-! ## RPC handlers (source lines 503-2153)

Each handler is embedded as a pure function from the request and the
session store to a status code, the resulting store, and (for the
status RPCs) a response.  An error branch of the source throws before
any store mutation, and the scoped session lock is released on the way
out, so those branches return the store unchanged; the success branch
of a handler that holds the lock is written as locking the session,
computing with the locked session, then writing back the unlocked
session, mirroring the auto_lock scope. -/

/-- Session shell built from a StartSession request (source lines
1026-1040). -/
def get_proto_session (req : StartSessionRequest) : session_type :=
  { id := req.session_id
    session_lock := false
    processing_lock := false
    tainted := false
    taint_status := .ok
    current_mcycle := 0
    active_epoch_index := req.active_epoch_index
    max_input_payload_length := 0
    rx_buffer_length := 0
    epochs := [(req.active_epoch_index,
      { epoch_index := req.active_epoch_index, state := .active, vouchers_tree := [],
        notices_tree := [], processed_inputs := [], pending_inputs := [] })]
    server_deadline := req.server_deadline
    server_cycles := req.server_cycles }

/-- The validation phase of the StartSession handler (source lines
1209-1283), up to the point where the child machine server is spawned.
The subsequent server startup (spawn, check-in rendezvous, version,
machine and config checks) talks to the external machine server and is
not modelled; a failure there erases the inserted session shell just
like a validation failure does (source lines 1343-1363), so every
failure leaves the store unchanged. -/
def new_StartSession_handler (req : StartSessionRequest) (m : sessions_t) :
    StatusCode × sessions_t :=
  if req.session_id = "" then (.invalid_argument, m)
  else
    match afind req.session_id m with
    | some _ => (.already_exists, m)
    | none =>
      if req.has_machine = false then (.invalid_argument, m)
      else if req.active_epoch_index = UINT64_MAX then (.out_of_range, m)
      else if req.has_server_deadline = false then (.invalid_argument, m)
      else if req.server_deadline.advance_state < req.server_deadline.advance_state_increment
        then (.invalid_argument, m)
      else if req.server_deadline.inspect_state < req.server_deadline.inspect_state_increment
        then (.invalid_argument, m)
      else if req.has_server_cycles = false then (.invalid_argument, m)
      else if req.server_cycles.max_advance_state = 0 ∨
              req.server_cycles.advance_state_increment = 0 then (.invalid_argument, m)
      else if req.server_cycles.max_advance_state < req.server_cycles.advance_state_increment
        then (.invalid_argument, m)
      else if req.server_cycles.max_inspect_state = 0 ∨
              req.server_cycles.inspect_state_increment = 0 then (.invalid_argument, m)
      else if req.server_cycles.max_inspect_state < req.server_cycles.inspect_state_increment
        then (.invalid_argument, m)
      else (.ok, m ++ [(req.session_id, get_proto_session req)])

/-- The FinishEpoch handler (source lines 626-682).  The optional Store
call is an external server operation and is modelled as succeeding. -/
def new_FinishEpoch_handler (combine : hash_t → hash_t → hash_t)
    (req : FinishEpochRequest) (m : sessions_t) : StatusCode × sessions_t :=
  match afind req.session_id m with
  | none => (.invalid_argument, m)
  | some s =>
    if s.active_epoch_index = UINT64_MAX then (.out_of_range, m)
    else if s.session_lock then (.aborted, m)
    else if s.tainted then (.data_loss, m)
    else
      match afind req.active_epoch_index s.epochs with
      | none => (.invalid_argument, m)
      | some e =>
        if e.state ≠ .active then (.invalid_argument, m)
        else if e.pending_inputs ≠ [] then (.invalid_argument, m)
        else if e.processed_inputs.length ≠ req.processed_input_count then (.invalid_argument, m)
        else
          let locked := { s with session_lock := true }
          let s1 := start_new_epoch
            { locked with epochs := aupdate req.active_epoch_index (finish_epoch combine e) locked.epochs }
          (.ok, aupdate req.session_id { s1 with session_lock := false } m)

/-- Copy of the request metadata into the 128-byte zero-initialised
metadata array (source lines 253-260). -/
def input_of_request (req : AdvanceStateRequest) : input_type :=
  { payload := req.input_payload
    metadata := (req.input_metadata ++ List.replicate INPUT_METADATA_LENGTH 0).take INPUT_METADATA_LENGTH }

/-- The enqueue phase of the AdvanceState handler (source lines
2039-2109): validation and the append of the input to the active epoch
pending queue, up to the success reply.  The subsequent drain of the
queue when its length just became one is process_pending_inputs. -/
def new_AdvanceState_handler (req : AdvanceStateRequest) (m : sessions_t) :
    StatusCode × sessions_t :=
  match afind req.session_id m with
  | none => (.invalid_argument, m)
  | some s =>
    if s.active_epoch_index = UINT64_MAX then (.out_of_range, m)
    else if s.session_lock then (.aborted, m)
    else if s.tainted then (.data_loss, m)
    else if s.active_epoch_index ≠ req.active_epoch_index then (.invalid_argument, m)
    else
      match afind s.active_epoch_index s.epochs with
      | none => (.internal, m)
      | some e =>
        if e.state ≠ .active then (.invalid_argument, m)
        else if e.pending_inputs.length + e.processed_inputs.length ≠ req.current_input_index
          then (.invalid_argument, m)
        else if req.input_metadata.length ≠ INPUT_METADATA_LENGTH then (.invalid_argument, m)
        else if s.rx_buffer_length ≤ req.input_payload.length then (.invalid_argument, m)
        else
          let locked := { s with session_lock := true }
          let e1 := { e with pending_inputs := e.pending_inputs ++ [input_of_request req] }
          let s1 := { locked with epochs := aupdate s.active_epoch_index e1 locked.epochs }
          (.ok, aupdate req.session_id { s1 with session_lock := false } m)

/-- The EndSession handler (source lines 716-789).  shutdown_status is
the status of the Shutdown call to the external machine server; the
third component records whether the child process group was
terminated. -/
def new_EndSession_handler (id : String) (shutdown_status : StatusCode)
    (m : sessions_t) : StatusCode × sessions_t × Bool :=
  match afind id m with
  | none => (.invalid_argument, m, false)
  | some s =>
    if s.session_lock then (.aborted, m, false)
    else if s.tainted = false ∧
        ((afind s.active_epoch_index s.epochs).getD default).pending_inputs ≠ [] then
      (.invalid_argument, m, false)
    else if s.tainted = false ∧
        ((afind s.active_epoch_index s.epochs).getD default).processed_inputs ≠ [] then
      (.invalid_argument, m, false)
    else if s.processing_lock then (.internal, m, false)
    else if shutdown_status ≠ .ok then (shutdown_status, m, false)
    else (.ok, aerase id m, s.tainted)

/-- The GetVersion handler (source lines 505-533): the manager version
is a compile-time constant and no session is touched. -/
def new_GetVersion_handler (m : sessions_t) : VersionResponse × sessions_t :=
  ({ major := 0, minor := 1, patch := 0 }, m)

/-- The GetStatus handler (source lines 537-563): lists the ids of all
known sessions without taking any session lock. -/
def new_GetStatus_handler (m : sessions_t) : List String × sessions_t :=
  (m.map (fun p => p.1), m)

/-- The GetSessionStatus handler (source lines 793-850). -/
def new_GetSessionStatus_handler (id : String) (m : sessions_t) :
    Except StatusCode GetSessionStatusResponse × sessions_t :=
  match afind id m with
  | none => (.error .invalid_argument, m)
  | some s =>
    if s.session_lock then (.error .aborted, m)
    else
      let locked := { s with session_lock := true }
      let resp : GetSessionStatusResponse :=
        { session_id := id
          active_epoch_index := locked.active_epoch_index
          epoch_index := locked.epochs.map (fun p => p.1)
          taint_status := if locked.tainted then some locked.taint_status else none }
      (.ok resp, aupdate id { locked with session_lock := false } m)

/-- The GetEpochStatus handler (source lines 922-995). -/
def new_GetEpochStatus_handler (id : String) (epoch_index : Nat) (m : sessions_t) :
    Except StatusCode GetEpochStatusResponse × sessions_t :=
  match afind id m with
  | none => (.error .invalid_argument, m)
  | some s =>
    if s.session_lock then (.error .aborted, m)
    else
      let locked := { s with session_lock := true }
      match afind epoch_index locked.epochs with
      | none => (.error .invalid_argument, m)
      | some e =>
        let resp : GetEpochStatusResponse :=
          { session_id := id
            epoch_index := epoch_index
            state := e.state
            processed_inputs := e.processed_inputs
            pending_input_count := e.pending_inputs.length
            taint_status := if locked.tainted then some locked.taint_status else none }
        (.ok resp, aupdate id { locked with session_lock := false } m)

/-! ## Concrete instances used by witnesses and counterexamples -/

def dl0 : deadline_config_type :=
  { checkin := 0, update_merkle_tree := 0, advance_state := 0, advance_state_increment := 0,
    inspect_state := 0, inspect_state_increment := 0, machine := 0, store := 0, fast := 0 }

def dl1 : deadline_config_type :=
  { dl0 with advance_state := 10, advance_state_increment := 5,
             inspect_state := 10, inspect_state_increment := 5 }

def cycles0 : cycles_config_type :=
  { max_advance_state := 100, advance_state_increment := 10,
    max_inspect_state := 100, inspect_state_increment := 10 }

def triv_proof : proof_t :=
  { target_address := 0, log2_target_size := LOG2_KECCAK_SIZE, target_hash := zero_hash,
    log2_root_size := LOG2_ROOT_SIZE, root_hash := zero_hash, sibling_hashes := [] }

def triv_voucher : voucher_type := { address := zero_hash, payload := [], hash := none }

def triv_notice : notice_type := { payload := [], hash := none }

def triv_report : report_type := { payload := [] }

def epoch0 : epoch_type :=
  { epoch_index := 0, state := .active, vouchers_tree := [], notices_tree := [],
    processed_inputs := [], pending_inputs := [] }

/-- A concrete combining function standing in for keccak of the
concatenation of two nodes. -/
def combA : hash_t → hash_t → hash_t := fun a _ => a

def base_session : session_type :=
  { id := "s", session_lock := false, processing_lock := false, tainted := false,
    taint_status := .ok, current_mcycle := 0, active_epoch_index := 0,
    max_input_payload_length := 0, rx_buffer_length := 4,
    epochs := [(0, epoch0)], server_deadline := dl1, server_cycles := cycles0 }

def cex3_session : session_type :=
  { base_session with tainted := true, session_lock := true, taint_status := .internal }

def wit3_session : session_type :=
  { base_session with tainted := true, taint_status := .internal }

def cex9_session : session_type :=
  { base_session with session_lock := true, active_epoch_index := UINT64_MAX }

def wit9_session : session_type := { base_session with session_lock := true }

def wit8_session : session_type := { base_session with session_lock := true }

def wit2_pi : processed_input_type :=
  { input_index := 0, most_recent_machine_hash := zero_hash,
    voucher_hashes_in_epoch := triv_proof, notice_hashes_in_epoch := triv_proof,
    processed := .skipped .machine_halted, reports := [] }

def wit2_epoch : epoch_type :=
  { epoch_index := 0, state := .active, vouchers_tree := [zero_hash],
    notices_tree := [zero_hash], processed_inputs := [wit2_pi], pending_inputs := [] }

def wit2_session : session_type := { base_session with epochs := [(0, wit2_epoch)] }

def wit2_req : FinishEpochRequest :=
  { session_id := "s", active_epoch_index := 0, processed_input_count := 1 }

def areq0 : AdvanceStateRequest :=
  { session_id := "s", active_epoch_index := 0, current_input_index := 0,
    input_metadata := List.replicate 128 0, input_payload := [1] }

def freq0 : FinishEpochRequest :=
  { session_id := "s", active_epoch_index := 0, processed_input_count := 0 }

def ssreq0 : StartSessionRequest :=
  { session_id := "s", active_epoch_index := 0, has_machine := true,
    has_server_deadline := true, server_deadline := dl1,
    has_server_cycles := true, server_cycles := cycles0 }

/-- A StartSession request whose deadline advance_state_increment and
inspect_state_increment are zero but which is otherwise valid. -/
def cex5_req : StartSessionRequest := { ssreq0 with server_deadline := dl0 }

def resp_cycle : RunResponse :=
  { mcycle := 200, tohost := 0, iflags_y := false, iflags_x := false, iflags_h := false }

def resp_voucher : RunResponse :=
  { mcycle := 6, tohost := HTIF_YIELD_REASON_TX_VOUCHER <<< 32,
    iflags_y := false, iflags_x := true, iflags_h := false }

def resp_halt : RunResponse :=
  { mcycle := 7, tohost := 0, iflags_y := false, iflags_x := false, iflags_h := true }

def st0 : LoopState :=
  { current_mcycle := 5, vouchers := [], notices := [], reports := [] }

def wit6_trace : InputTrace :=
  { responses := [some resp_halt]
    read_voucher := fun _ => triv_voucher
    read_notice := fun _ => triv_notice
    read_report := fun _ => triv_report
    voucher_hashes_in_machine := triv_proof
    notice_hashes_in_machine := triv_proof
    voucher_hashes_bytes := []
    notice_hashes_bytes := []
    keccak_in_voucher_hashes := fun _ => triv_proof
    keccak_in_notice_hashes := fun _ => triv_proof
    root_hash := zero_hash }

def wit6_epoch2 : epoch_type :=
  { epoch0 with
      vouchers_tree := [zero_hash]
      notices_tree := [zero_hash]
      processed_inputs := [{
        input_index := 0
        most_recent_machine_hash := zero_hash
        voucher_hashes_in_epoch := tree_get_proof combA [zero_hash] 0 LOG2_KECCAK_SIZE
        notice_hashes_in_epoch := tree_get_proof combA [zero_hash] 0 LOG2_KECCAK_SIZE
        processed := .skipped .machine_halted
        reports := [] }] }

/-- A 32-byte length field whose low 8 bytes encode 2 ^ 31 big-endian:
the byte at offset 28 is 0x80 and every other byte is zero. -/
def cex7_field : List Nat := List.replicate 24 0 ++ [0, 0, 0, 0, 128, 0, 0, 0]

/-- A hash range holding two non-zero 32-byte entries, no zero
terminator, and a 2-byte trailing fragment. -/
def wit10_data : List Nat :=
  List.replicate 32 1 ++ List.replicate 32 2 ++ [9, 9]

end RollupMachineManager

namespace RollupMachineManager

/-! ## Supporting lemmas for the Merkle model -/

theorem mroot_nil (combine : hash_t → hash_t → hash_t) (d : Nat) :
    mroot combine d [] = zero_root combine d := by
  cases d <;> simp [mroot, zero_root]

theorem mroot_succ (combine : hash_t → hash_t → hash_t) (d : Nat) (l : List hash_t)
    (h : l.isEmpty = false) :
    mroot combine (d + 1) l =
      combine (mroot combine d (l.take (2 ^ d))) (mroot combine d (l.drop (2 ^ d))) := by
  rw [mroot, h]
  simp

theorem mverify_mproof (combine : hash_t → hash_t → hash_t) :
    ∀ (d : Nat) (l : List hash_t) (i : Nat), i < l.length → l.length ≤ 2 ^ d →
      mverify combine d i (l.getD i zero_hash) (mproof combine d l i) = mroot combine d l := by
  intro d
  induction d with
  | zero =>
    intro l i hi hl
    have hl1 : l.length ≤ 1 := by simpa using hl
    have hi0 : i = 0 := by omega
    subst hi0
    cases l with
    | nil => simp at hi
    | cons a t => simp [mverify, mroot, List.getD]
  | succ d ih =>
    intro l i hi hl
    have hp : 2 ^ (d + 1) = 2 ^ d + 2 ^ d := by rw [pow_succ]; omega
    have hne : l.isEmpty = false := by
      cases l with
      | nil => simp at hi
      | cons a t => rfl
    rw [mroot_succ combine d l hne]
    by_cases hcase : i < 2 ^ d
    · have hpf : mproof combine (d + 1) l i =
          mroot combine d (l.drop (2 ^ d)) :: mproof combine d (l.take (2 ^ d)) i := by
        rw [mproof, if_pos hcase]
      have hvf : ∀ sib rest, mverify combine (d + 1) i (l.getD i zero_hash) (sib :: rest) =
          combine (mverify combine d i (l.getD i zero_hash) rest) sib := by
        intro sib rest
        rw [mverify, if_pos hcase]
      rw [hpf, hvf]
      have hti : i < (l.take (2 ^ d)).length := by
        rw [List.length_take]; omega
      have htl : (l.take (2 ^ d)).length ≤ 2 ^ d := by
        rw [List.length_take]; omega
      have hget : (l.take (2 ^ d)).getD i zero_hash = l.getD i zero_hash := by
        simp [List.getD_eq_getElem?_getD, List.getElem?_take, hcase]
      have hrec := ih (l.take (2 ^ d)) i hti htl
      rw [hget] at hrec
      rw [hrec]
    · have hpf : mproof combine (d + 1) l i =
          mroot combine d (l.take (2 ^ d)) :: mproof combine d (l.drop (2 ^ d)) (i - 2 ^ d) := by
        rw [mproof, if_neg hcase]
      have hvf : ∀ sib rest, mverify combine (d + 1) i (l.getD i zero_hash) (sib :: rest) =
          combine sib (mverify combine d (i - 2 ^ d) (l.getD i zero_hash) rest) := by
        intro sib rest
        rw [mverify, if_neg hcase]
      rw [hpf, hvf]
      have hdi : i - 2 ^ d < (l.drop (2 ^ d)).length := by
        rw [List.length_drop]; omega
      have hdl : (l.drop (2 ^ d)).length ≤ 2 ^ d := by
        rw [List.length_drop]; omega
      have hget : (l.drop (2 ^ d)).getD (i - 2 ^ d) zero_hash = l.getD i zero_hash := by
        rw [List.getD_eq_getElem?_getD, List.getD_eq_getElem?_getD, List.getElem?_drop]
        congr 2
        omega
      have hrec := ih (l.drop (2 ^ d)) (i - 2 ^ d) hdi hdl
      rw [hget] at hrec
      rw [hrec]

/-- The proofs returned by the modelled accumulator verify against its
root, for every combining function. -/
theorem tree_get_proof_verifies (combine : hash_t → hash_t → hash_t)
    (leaves : List hash_t) (i : Nat) (hi : i < leaves.length)
    (hlen : leaves.length ≤ 2 ^ (LOG2_ROOT_SIZE - LOG2_KECCAK_SIZE)) :
    proof_verifies combine (tree_get_proof combine leaves (i <<< LOG2_KECCAK_SIZE) LOG2_KECCAK_SIZE) := by
  have haddr : (i <<< LOG2_KECCAK_SIZE) >>> LOG2_KECCAK_SIZE = i := by
    simp [LOG2_KECCAK_SIZE, Nat.shiftLeft_eq, Nat.shiftRight_eq_div_pow]
  simp only [proof_verifies, tree_get_proof, haddr]
  exact mverify_mproof combine _ leaves i hi hlen

/-! ## Association list lemmas -/

theorem afind_aupdate_ne {α β : Type} [DecidableEq α] (k k2 : α) (v : β)
    (hk2 : k2 ≠ k) : ∀ (l : List (α × β)), afind k2 (aupdate k v l) = afind k2 l := by
  intro l
  induction l with
  | nil => simp [afind, aupdate]
  | cons p t ih =>
    by_cases hp : p.1 = k
    · have hp2 : p.1 ≠ k2 := by rw [hp]; exact fun he => hk2 he.symm
      simp only [aupdate, List.map_cons, if_pos hp]
      rw [afind, if_neg (fun he => hk2 he.symm), afind, if_neg hp2]
      exact ih
    · simp only [aupdate, List.map_cons, if_neg hp]
      by_cases hp2 : p.1 = k2
      · rw [afind, if_pos hp2, afind, if_pos hp2]
      · rw [afind, if_neg hp2, afind, if_neg hp2]
        exact ih

theorem afind_aupdate_self {α β : Type} [DecidableEq α] (k : α) (v : β) :
    ∀ (l : List (α × β)), (afind k l).isSome → afind k (aupdate k v l) = some v := by
  intro l
  induction l with
  | nil => intro h; simp [afind] at h
  | cons p t ih =>
    intro h
    by_cases hp : p.1 = k
    · simp only [aupdate, List.map_cons, if_pos hp]
      rw [afind, if_pos rfl]
    · simp only [aupdate, List.map_cons, if_neg hp]
      rw [afind, if_neg hp]
      rw [afind, if_neg hp] at h
      exact ih h

/-- Writing back the value already bound to a key leaves every lookup
unchanged. -/
theorem afind_aupdate_frame {α β : Type} [DecidableEq α] (k : α) (v : β)
    (l : List (α × β)) (h : afind k l = some v) :
    ∀ k2, afind k2 (aupdate k v l) = afind k2 l := by
  intro k2
  by_cases hk2 : k2 = k
  · rw [hk2, afind_aupdate_self k v l (by rw [h]; rfl), h]
  · exact afind_aupdate_ne k k2 v hk2 l

theorem afind_aerase_self {α β : Type} [DecidableEq α] (k : α) :
    ∀ (l : List (α × β)), afind k (aerase k l) = none := by
  intro l
  induction l with
  | nil => simp [afind, aerase]
  | cons p t ih =>
    by_cases hp : p.1 = k
    · simp only [aerase, List.filter_cons]
      rw [if_neg (by simp [hp])]
      exact ih
    · simp only [aerase, List.filter_cons]
      rw [if_pos (by simp [hp])]
      rw [afind, if_neg hp]
      exact ih

theorem afind_aerase_ne {α β : Type} [DecidableEq α] (k k2 : α) (hk2 : k2 ≠ k) :
    ∀ (l : List (α × β)), afind k2 (aerase k l) = afind k2 l := by
  intro l
  induction l with
  | nil => simp [afind, aerase]
  | cons p t ih =>
    by_cases hp : p.1 = k
    · simp only [aerase, List.filter_cons]
      rw [if_neg (by simp [hp])]
      rw [afind, if_neg (by rw [hp]; exact fun he => hk2 he.symm)]
      exact ih
    · simp only [aerase, List.filter_cons]
      rw [if_pos (by simp [hp])]
      by_cases hp2 : p.1 = k2
      · rw [afind, if_pos hp2, afind, if_pos hp2]
      · rw [afind, if_neg hp2, afind, if_neg hp2]
        exact ih

/-- Restoring the lock flag it already has leaves a session unchanged. -/
theorem session_set_lock_false (s : session_type) (h : s.session_lock = false) :
    { s with session_lock := false } = s := by
  cases s
  simp only at h
  simp [h]

/-! ## Codec lemmas -/

theorem count_go_eq_takeWhile (n : Nat) (hn : n ≠ 0) :
    ∀ (fuel : Nat) (d : List Nat), d.length ≤ fuel →
      count_null_terminated_entries_go n fuel d =
        ((complete_entries_go n fuel d).takeWhile (fun e => !is_null e)).length := by
  intro fuel
  induction fuel with
  | zero =>
    intro d _
    rfl
  | succ fuel ih =>
    intro d hd
    by_cases hle : n ≤ d.length
    · by_cases hz : is_null (d.take n) = true
      · rw [count_null_terminated_entries_go, complete_entries_go]
        rw [if_pos hle, if_pos hz, if_pos ⟨hle, hn⟩]
        simp [hz]
      · rw [count_null_terminated_entries_go, complete_entries_go]
        rw [if_pos hle, if_neg hz, if_neg hn, if_pos ⟨hle, hn⟩]
        rw [ih (d.drop n) (by rw [List.length_drop]; omega)]
        simp [List.takeWhile_cons, hz]
        omega
    · rw [count_null_terminated_entries_go, complete_entries_go]
      rw [if_neg hle, if_neg (by intro hc; exact hle hc.1)]
      simp

theorem count_null_terminated_entries_eq_takeWhile (n : Nat) (hn : n ≠ 0)
    (data : List Nat) :
    count_null_terminated_entries data n =
      ((complete_entries n data).takeWhile (fun e => !is_null e)).length :=
  count_go_eq_takeWhile n hn data.length data (le_refl _)

theorem complete_entries_go_length (n : Nat) (hn : n ≠ 0) :
    ∀ (fuel : Nat) (d : List Nat), d.length ≤ fuel →
      (complete_entries_go n fuel d).length = d.length / n := by
  intro fuel
  induction fuel with
  | zero =>
    intro d hd
    have hd0 : d.length = 0 := by omega
    rw [complete_entries_go]
    rw [hd0, Nat.zero_div]
    rfl
  | succ fuel ih =>
    intro d hd
    by_cases hle : n ≤ d.length
    · rw [complete_entries_go, if_pos ⟨hle, hn⟩]
      rw [List.length_cons, ih (d.drop n) (by rw [List.length_drop]; omega)]
      rw [List.length_drop]
      rw [Nat.div_eq_sub_div (Nat.pos_of_ne_zero hn) hle]
    · rw [complete_entries_go, if_neg (by intro hc; exact hle hc.1)]
      rw [Nat.div_eq_of_lt (by omega)]
      rfl

theorem complete_entries_length (n : Nat) (hn : n ≠ 0) (data : List Nat) :
    (complete_entries n data).length = data.length / n :=
  complete_entries_go_length n hn data.length data (le_refl _)

theorem length_takeWhile_of_all {α : Type} (p : α → Bool) :
    ∀ l : List α, (∀ a ∈ l, p a = true) → (l.takeWhile p).length = l.length := by
  intro l
  induction l with
  | nil => intro _; rfl
  | cons a t ih =>
    intro h
    rw [List.takeWhile_cons, h a (by simp)]
    simp only [if_pos, List.length_cons]
    rw [ih (fun b hb => h b (by simp [hb]))]

/-! ## Run loop and pipeline lemmas -/

/-- If every Run reply of the trace reports an mcycle at least mc0 and
the loop starts at an mcycle at least mc0, the loop never goes below
mc0: the loop state current_mcycle only ever moves to a reply mcycle. -/
theorem run_input_loop_mcycle_ge (mc0 max_mcycle : Nat) (readV : Nat → voucher_type)
    (readN : Nat → notice_type) (readR : Nat → report_type) :
    ∀ (rs : List (Option RunResponse)) (st : LoopState),
      mc0 ≤ st.current_mcycle →
      (∀ o ∈ rs, ∀ r, o = some r → mc0 ≤ r.mcycle) →
      mc0 ≤ (run_input_loop max_mcycle readV readN readR rs st).state.current_mcycle := by
  intro rs
  induction rs with
  | nil =>
    intro st h1 _
    simpa [run_input_loop, LoopResult.state] using h1
  | cons o rest ih =>
    intro st h1 h2
    cases o with
    | none => simpa [run_input_loop, LoopResult.state] using h1
    | some r =>
      have hr : mc0 ≤ r.mcycle := h2 (some r) (by simp) r rfl
      have h2r : ∀ o ∈ rest, ∀ r2, o = some r2 → mc0 ≤ r2.mcycle :=
        fun o ho r2 he => h2 o (by simp [ho]) r2 he
      simp only [run_input_loop]
      split_ifs <;>
        first
          | simpa [LoopResult.state] using h1
          | exact ih _ (by simpa using hr) h2r

/-- The mcycle component of a successful pipeline iteration is
step_mcycle of the entry mcycle: it is the final loop mcycle on
acceptance and the entry mcycle on a skip. -/
theorem process_one_input_mcycle (combine : hash_t → hash_t → hash_t)
    (cycles : cycles_config_type) (t : InputTrace) (e : epoch_type) (mcycle : Nat)
    (e2 : epoch_type) (mc2 : Nat)
    (h : process_one_input combine cycles t e mcycle = some (e2, mc2)) :
    mc2 = step_mcycle cycles t mcycle := by
  unfold step_mcycle
  cases hrun : run_input_loop ((mcycle + cycles.max_advance_state) % 2 ^ 64)
      t.read_voucher t.read_notice t.read_report t.responses
      { current_mcycle := mcycle, vouchers := [], notices := [], reports := [] } with
  | exhausted st => simp only [process_one_input, hrun] at h; exact Option.noConfusion h
  | tainted c st => simp only [process_one_input, hrun] at h; exact Option.noConfusion h
  | outcome skip st =>
    simp only [process_one_input, hrun] at h
    cases skip with
    | none =>
      simp only at h ⊢
      split_ifs at h
      simp only [Option.some.injEq, Prod.mk.injEq] at h
      exact h.2.symm
    | some reason =>
      simp only at h ⊢
      split_ifs at h
      simp only [Option.some.injEq, Prod.mk.injEq] at h
      exact h.2.symm

/-- A successful skipped iteration appends the zero hash to both trees
and leaves the mcycle unchanged. -/
theorem process_one_input_skip (combine : hash_t → hash_t → hash_t)
    (cycles : cycles_config_type) (t : InputTrace) (e : epoch_type) (mcycle : Nat)
    (reason : input_skip_reason) (st : LoopState) (e2 : epoch_type) (mc2 : Nat)
    (hrun : run_input_loop ((mcycle + cycles.max_advance_state) % 2 ^ 64)
      t.read_voucher t.read_notice t.read_report t.responses
      { current_mcycle := mcycle, vouchers := [], notices := [], reports := [] } =
      .outcome (some reason) st)
    (h : process_one_input combine cycles t e mcycle = some (e2, mc2)) :
    e2.vouchers_tree = e.vouchers_tree ++ [zero_hash] ∧
    e2.notices_tree = e.notices_tree ++ [zero_hash] ∧
    mc2 = mcycle := by
  simp only [process_one_input, hrun] at h
  split_ifs at h
  simp only [Option.some.injEq, Prod.mk.injEq] at h
  refine ⟨?_, ?_, h.2.symm⟩
  · rw [← h.1]
  · rw [← h.1]

/-- A successful accepted iteration moves the mcycle to the final loop
mcycle, which is at least the entry mcycle whenever the Run replies of
the trace never report an mcycle below it. -/
theorem process_one_input_accept_mcycle (combine : hash_t → hash_t → hash_t)
    (cycles : cycles_config_type) (t : InputTrace) (e : epoch_type) (mcycle : Nat)
    (e2 : epoch_type) (mc2 : Nat)
    (hmono : ∀ o ∈ t.responses, ∀ r, o = some r → mcycle ≤ r.mcycle)
    (h : process_one_input combine cycles t e mcycle = some (e2, mc2)) :
    mcycle ≤ mc2 := by
  rw [process_one_input_mcycle combine cycles t e mcycle e2 mc2 h]
  unfold step_mcycle
  cases hrun : run_input_loop ((mcycle + cycles.max_advance_state) % 2 ^ 64)
      t.read_voucher t.read_notice t.read_report t.responses
      { current_mcycle := mcycle, vouchers := [], notices := [], reports := [] } with
  | exhausted st => simp
  | tainted c st => simp
  | outcome skip st =>
    cases skip with
    | some reason => simp
    | none =>
      simp only
      have := run_input_loop_mcycle_ge mcycle ((mcycle + cycles.max_advance_state) % 2 ^ 64)
        t.read_voucher t.read_notice t.read_report t.responses
        { current_mcycle := mcycle, vouchers := [], notices := [], reports := [] }
        (le_refl mcycle) hmono
      rw [hrun] at this
      simpa [LoopResult.state] using this

/-- step_mcycle never decreases the mcycle under the same per-trace
hypothesis. -/
theorem step_mcycle_ge (cycles : cycles_config_type) (t : InputTrace) (mcycle : Nat)
    (hmono : ∀ o ∈ t.responses, ∀ r, o = some r → mcycle ≤ r.mcycle) :
    mcycle ≤ step_mcycle cycles t mcycle := by
  unfold step_mcycle
  cases hrun : run_input_loop ((mcycle + cycles.max_advance_state) % 2 ^ 64)
      t.read_voucher t.read_notice t.read_report t.responses
      { current_mcycle := mcycle, vouchers := [], notices := [], reports := [] } with
  | exhausted st => simp
  | tainted c st => simp
  | outcome skip st =>
    cases skip with
    | some reason => simp
    | none =>
      simp only
      have := run_input_loop_mcycle_ge mcycle ((mcycle + cycles.max_advance_state) % 2 ^ 64)
        t.read_voucher t.read_notice t.read_report t.responses
        { current_mcycle := mcycle, vouchers := [], notices := [], reports := [] }
        (le_refl mcycle) hmono
      rw [hrun] at this
      simpa [LoopResult.state] using this

/-- Monotonicity of the session mcycle along the drain loop. -/
theorem process_pending_inputs_mcycle_mono (combine : hash_t → hash_t → hash_t)
    (cycles : cycles_config_type) :
    ∀ (ts : List InputTrace) (e : epoch_type) (mcycle : Nat) (e2 : epoch_type) (mc2 : Nat),
      traces_mono cycles mcycle ts →
      process_pending_inputs combine cycles ts e mcycle = some (e2, mc2) →
      mcycle ≤ mc2 := by
  intro ts
  induction ts with
  | nil =>
    intro e mcycle e2 mc2 _ h
    simp only [process_pending_inputs, Option.some.injEq, Prod.mk.injEq] at h
    omega
  | cons t rest ih =>
    intro e mcycle e2 mc2 hmono h
    obtain ⟨h1, h2⟩ := hmono
    simp only [process_pending_inputs] at h
    cases hstep : process_one_input combine cycles t e mcycle with
    | none => rw [hstep] at h; simp at h
    | some p =>
      obtain ⟨e1, mc1⟩ := p
      rw [hstep] at h
      simp only at h
      have hmc1 : mc1 = step_mcycle cycles t mcycle :=
        process_one_input_mcycle combine cycles t e mcycle e1 mc1 hstep
      have hge : mcycle ≤ mc1 := by
        rw [hmc1]
        exact step_mcycle_ge cycles t mcycle h1
      have := ih e1 mc1 e2 mc2 (by rw [hmc1]; exact h2) h
      omega

end RollupMachineManager

namespace RollupMachineManager

/-! ## Association list append lemmas -/

theorem afind_append_left {α β : Type} [DecidableEq α] (k : α) (v : β) :
    ∀ (l1 l2 : List (α × β)), afind k l1 = some v → afind k (l1 ++ l2) = some v := by
  intro l1 l2
  induction l1 with
  | nil => intro h; simp [afind] at h
  | cons p t ih =>
    intro h
    by_cases hp : p.1 = k
    · rw [afind, if_pos hp] at h
      rw [List.cons_append, afind, if_pos hp]
      exact h
    · rw [afind, if_neg hp] at h
      rw [List.cons_append, afind, if_neg hp]
      exact ih h

theorem afind_append_right {α β : Type} [DecidableEq α] (k : α) :
    ∀ (l1 l2 : List (α × β)), afind k l1 = none → afind k (l1 ++ l2) = afind k l2 := by
  intro l1 l2
  induction l1 with
  | nil => intro _; rfl
  | cons p t ih =>
    intro h
    by_cases hp : p.1 = k
    · rw [afind, if_pos hp] at h
      exact Option.noConfusion h
    · rw [afind, if_neg hp] at h
      rw [List.cons_append, afind, if_neg hp]
      exact ih h

/-! ## Claims -/

/-- C10: count_null_terminated_entries returns the number of complete
32-byte entries preceding the first all-zero complete entry; with no
all-zero entry among the complete entries it returns the count of all
complete entries (the length of the data divided by the entry size,
rounding down, so a range completely full of non-zero hashes is counted
whole, without error); a trailing fragment shorter than 32 bytes is
ignored, as it is never a complete entry. -/
theorem C10_count_null_terminated_entries (data : List Nat) :
    count_null_terminated_entries data KECCAK_SIZE =
      ((complete_entries KECCAK_SIZE data).takeWhile (fun e => !is_null e)).length ∧
    ((∀ e ∈ complete_entries KECCAK_SIZE data, is_null e = false) →
      count_null_terminated_entries data KECCAK_SIZE = data.length / KECCAK_SIZE) := by
  have hn : KECCAK_SIZE ≠ 0 := by decide
  constructor
  · exact count_null_terminated_entries_eq_takeWhile KECCAK_SIZE hn data
  · intro hall
    rw [count_null_terminated_entries_eq_takeWhile KECCAK_SIZE hn data]
    rw [length_takeWhile_of_all _ _ (fun e he => by simp [hall e he])]
    exact complete_entries_length KECCAK_SIZE hn data

/-- Witness for C10 at a concrete range: two non-zero entries, no zero
terminator, and a trailing 2-byte fragment give count 2 = 66 / 32. -/
theorem C10_witness :
    count_null_terminated_entries wit10_data KECCAK_SIZE =
      ((complete_entries KECCAK_SIZE wit10_data).takeWhile (fun e => !is_null e)).length ∧
    count_null_terminated_entries wit10_data KECCAK_SIZE = wit10_data.length / KECCAK_SIZE :=
  ⟨(C10_count_null_terminated_entries wit10_data).1,
   (C10_count_null_terminated_entries wit10_data).2 (by decide)⟩

/-- C7: evidence of the length-decoding defect.  On the 32-byte field
whose low 8 bytes encode 2 ^ 31 big-endian (upper 24 bytes zero, so no
taint), get_payload_length returns 18446744071562067968 =
0xFFFFFFFF80000000 instead of the encoded 2147483648 = 2 ^ 31: the
source shifts the byte inside a promoted 32-bit int, and the negative
32-bit result is sign-extended into the 64-bit accumulator.  A field
with a non-zero byte among the upper 24 still taints the session, as
the claim states. -/
theorem C7_payload_length_bug :
    get_payload_length cex7_field = some 18446744071562067968 ∧
    be_uint64 cex7_field = 2147483648 ∧
    (18446744071562067968 : Nat) ≠ 2147483648 ∧
    get_payload_length (List.replicate 32 1) = none := by
  refine ⟨by decide, by decide, by decide, by decide⟩

/-- C5 (amended): the StartSession validation phase succeeds only if
the session id is non-empty and not already present, a machine config
is present, the deadline config is present with advance_state at least
advance_state_increment and inspect_state at least
inspect_state_increment (zero increments are accepted), and the cycles
config is present with max_advance_state at least
advance_state_increment greater than zero and likewise for
inspect_state; every validation failure leaves the store unchanged
(equivalently, leaves no session behind). -/
theorem C5_start_session_validation (req : StartSessionRequest) (m : sessions_t) :
    ((new_StartSession_handler req m).1 = .ok →
      req.session_id ≠ "" ∧
      afind req.session_id m = none ∧
      req.has_machine = true ∧
      req.has_server_deadline = true ∧
      req.server_deadline.advance_state_increment ≤ req.server_deadline.advance_state ∧
      req.server_deadline.inspect_state_increment ≤ req.server_deadline.inspect_state ∧
      req.has_server_cycles = true ∧
      0 < req.server_cycles.advance_state_increment ∧
      req.server_cycles.advance_state_increment ≤ req.server_cycles.max_advance_state ∧
      0 < req.server_cycles.inspect_state_increment ∧
      req.server_cycles.inspect_state_increment ≤ req.server_cycles.max_inspect_state) ∧
    ((new_StartSession_handler req m).1 ≠ .ok → (new_StartSession_handler req m).2 = m) := by
  constructor
  · intro hok
    rw [new_StartSession_handler] at hok
    by_cases hid : req.session_id = ""
    · rw [if_pos hid] at hok
      exact StatusCode.noConfusion hok
    · rw [if_neg hid] at hok
      cases hfind : afind req.session_id m with
      | some s =>
        rw [hfind] at hok
        exact StatusCode.noConfusion hok
      | none =>
        simp only [hfind] at hok
        by_cases h1 : req.has_machine = false
        · rw [if_pos h1] at hok; exact StatusCode.noConfusion hok
        rw [if_neg h1] at hok
        by_cases h2 : req.active_epoch_index = UINT64_MAX
        · rw [if_pos h2] at hok; exact StatusCode.noConfusion hok
        rw [if_neg h2] at hok
        by_cases h3 : req.has_server_deadline = false
        · rw [if_pos h3] at hok; exact StatusCode.noConfusion hok
        rw [if_neg h3] at hok
        by_cases h4 : req.server_deadline.advance_state < req.server_deadline.advance_state_increment
        · rw [if_pos h4] at hok; exact StatusCode.noConfusion hok
        rw [if_neg h4] at hok
        by_cases h5 : req.server_deadline.inspect_state < req.server_deadline.inspect_state_increment
        · rw [if_pos h5] at hok; exact StatusCode.noConfusion hok
        rw [if_neg h5] at hok
        by_cases h6 : req.has_server_cycles = false
        · rw [if_pos h6] at hok; exact StatusCode.noConfusion hok
        rw [if_neg h6] at hok
        by_cases h7 : req.server_cycles.max_advance_state = 0 ∨
            req.server_cycles.advance_state_increment = 0
        · rw [if_pos h7] at hok; exact StatusCode.noConfusion hok
        rw [if_neg h7] at hok
        by_cases h8 : req.server_cycles.max_advance_state < req.server_cycles.advance_state_increment
        · rw [if_pos h8] at hok; exact StatusCode.noConfusion hok
        rw [if_neg h8] at hok
        by_cases h9 : req.server_cycles.max_inspect_state = 0 ∨
            req.server_cycles.inspect_state_increment = 0
        · rw [if_pos h9] at hok; exact StatusCode.noConfusion hok
        rw [if_neg h9] at hok
        by_cases h10 : req.server_cycles.max_inspect_state < req.server_cycles.inspect_state_increment
        · rw [if_pos h10] at hok; exact StatusCode.noConfusion hok
        rw [if_neg h10] at hok
        rcases not_or.mp h7 with ⟨ha, hb⟩
        rcases not_or.mp h9 with ⟨hc, hd⟩
        refine ⟨hid, rfl, by simpa using h1, by simpa using h3, by omega, by omega,
          by simpa using h6, by omega, by omega, by omega, by omega⟩
  · intro hne
    rw [new_StartSession_handler] at hne ⊢
    by_cases hid : req.session_id = ""
    · rw [if_pos hid] at hne ⊢
    · rw [if_neg hid] at hne ⊢
      cases hfind : afind req.session_id m with
      | some s =>
        simp only [hfind] at hne ⊢
      | none =>
        simp only [hfind] at hne ⊢
        by_cases h1 : req.has_machine = false
        · rw [if_pos h1]
        rw [if_neg h1] at hne ⊢
        by_cases h2 : req.active_epoch_index = UINT64_MAX
        · rw [if_pos h2]
        rw [if_neg h2] at hne ⊢
        by_cases h3 : req.has_server_deadline = false
        · rw [if_pos h3]
        rw [if_neg h3] at hne ⊢
        by_cases h4 : req.server_deadline.advance_state < req.server_deadline.advance_state_increment
        · rw [if_pos h4]
        rw [if_neg h4] at hne ⊢
        by_cases h5 : req.server_deadline.inspect_state < req.server_deadline.inspect_state_increment
        · rw [if_pos h5]
        rw [if_neg h5] at hne ⊢
        by_cases h6 : req.has_server_cycles = false
        · rw [if_pos h6]
        rw [if_neg h6] at hne ⊢
        by_cases h7 : req.server_cycles.max_advance_state = 0 ∨
            req.server_cycles.advance_state_increment = 0
        · rw [if_pos h7]
        rw [if_neg h7] at hne ⊢
        by_cases h8 : req.server_cycles.max_advance_state < req.server_cycles.advance_state_increment
        · rw [if_pos h8]
        rw [if_neg h8] at hne ⊢
        by_cases h9 : req.server_cycles.max_inspect_state = 0 ∨
            req.server_cycles.inspect_state_increment = 0
        · rw [if_pos h9]
        rw [if_neg h9] at hne ⊢
        by_cases h10 : req.server_cycles.max_inspect_state < req.server_cycles.inspect_state_increment
        · rw [if_pos h10]
        rw [if_neg h10] at hne
        exact absurd rfl hne

/-- C1: classification of each Run response inside the per-input run
loop.  With max_mcycle computed without uint64_t wrap-around as
current_mcycle + max_advance_state, the response r is classified in
order: an mcycle of at least current_mcycle + max_advance_state skips
the input with cycle_limit_exceeded; otherwise a set iflags_h skips
with machine_halted; otherwise with iflags_y set, yield reason
RX_REJECTED skips with requested_by_machine, RX_ACCEPTED accepts (no
skip reason), and any other manual reason taints the session with
OUT_OF_RANGE; otherwise iflags_x must be set (else the session is
tainted with INTERNAL), and automatic reasons TX_VOUCHER, TX_NOTICE,
TX_REPORT append the next voucher, notice, report read from the
tx-buffer while any other automatic reason is ignored, the loop
continuing at the response mcycle in either case. -/
theorem C1_run_loop_classification (current_mcycle max_advance_state : Nat)
    (hovf : current_mcycle + max_advance_state < 2 ^ 64)
    (readV : Nat → voucher_type) (readN : Nat → notice_type) (readR : Nat → report_type)
    (r : RunResponse) (rest : List (Option RunResponse)) (st : LoopState) :
    (current_mcycle + max_advance_state ≤ r.mcycle →
      run_input_loop ((current_mcycle + max_advance_state) % 2 ^ 64) readV readN readR
        (some r :: rest) st = .outcome (some .cycle_limit_exceeded) st) ∧
    (r.mcycle < current_mcycle + max_advance_state → r.iflags_h = true →
      run_input_loop ((current_mcycle + max_advance_state) % 2 ^ 64) readV readN readR
        (some r :: rest) st = .outcome (some .machine_halted) st) ∧
    (r.mcycle < current_mcycle + max_advance_state → r.iflags_h = false →
      r.iflags_y = true → yield_reason r = HTIF_YIELD_REASON_RX_REJECTED →
      run_input_loop ((current_mcycle + max_advance_state) % 2 ^ 64) readV readN readR
        (some r :: rest) st = .outcome (some .requested_by_machine) st) ∧
    (r.mcycle < current_mcycle + max_advance_state → r.iflags_h = false →
      r.iflags_y = true → yield_reason r = HTIF_YIELD_REASON_RX_ACCEPTED →
      run_input_loop ((current_mcycle + max_advance_state) % 2 ^ 64) readV readN readR
        (some r :: rest) st = .outcome none st) ∧
    (r.mcycle < current_mcycle + max_advance_state → r.iflags_h = false →
      r.iflags_y = true → yield_reason r ≠ HTIF_YIELD_REASON_RX_REJECTED →
      yield_reason r ≠ HTIF_YIELD_REASON_RX_ACCEPTED →
      run_input_loop ((current_mcycle + max_advance_state) % 2 ^ 64) readV readN readR
        (some r :: rest) st = .tainted .out_of_range st) ∧
    (r.mcycle < current_mcycle + max_advance_state → r.iflags_h = false →
      r.iflags_y = false → r.iflags_x = false →
      run_input_loop ((current_mcycle + max_advance_state) % 2 ^ 64) readV readN readR
        (some r :: rest) st = .tainted .internal st) ∧
    (r.mcycle < current_mcycle + max_advance_state → r.iflags_h = false →
      r.iflags_y = false → r.iflags_x = true →
      yield_reason r = HTIF_YIELD_REASON_TX_VOUCHER →
      run_input_loop ((current_mcycle + max_advance_state) % 2 ^ 64) readV readN readR
        (some r :: rest) st =
      run_input_loop ((current_mcycle + max_advance_state) % 2 ^ 64) readV readN readR rest
        { st with vouchers := st.vouchers ++ [readV st.vouchers.length],
                  current_mcycle := r.mcycle }) ∧
    (r.mcycle < current_mcycle + max_advance_state → r.iflags_h = false →
      r.iflags_y = false → r.iflags_x = true →
      yield_reason r = HTIF_YIELD_REASON_TX_NOTICE →
      run_input_loop ((current_mcycle + max_advance_state) % 2 ^ 64) readV readN readR
        (some r :: rest) st =
      run_input_loop ((current_mcycle + max_advance_state) % 2 ^ 64) readV readN readR rest
        { st with notices := st.notices ++ [readN st.notices.length],
                  current_mcycle := r.mcycle }) ∧
    (r.mcycle < current_mcycle + max_advance_state → r.iflags_h = false →
      r.iflags_y = false → r.iflags_x = true →
      yield_reason r = HTIF_YIELD_REASON_TX_REPORT →
      run_input_loop ((current_mcycle + max_advance_state) % 2 ^ 64) readV readN readR
        (some r :: rest) st =
      run_input_loop ((current_mcycle + max_advance_state) % 2 ^ 64) readV readN readR rest
        { st with reports := st.reports ++ [readR st.reports.length],
                  current_mcycle := r.mcycle }) ∧
    (r.mcycle < current_mcycle + max_advance_state → r.iflags_h = false →
      r.iflags_y = false → r.iflags_x = true →
      yield_reason r ≠ HTIF_YIELD_REASON_TX_VOUCHER →
      yield_reason r ≠ HTIF_YIELD_REASON_TX_NOTICE →
      yield_reason r ≠ HTIF_YIELD_REASON_TX_REPORT →
      run_input_loop ((current_mcycle + max_advance_state) % 2 ^ 64) readV readN readR
        (some r :: rest) st =
      run_input_loop ((current_mcycle + max_advance_state) % 2 ^ 64) readV readN readR rest
        { st with current_mcycle := r.mcycle }) := by
  have hm : (current_mcycle + max_advance_state) % 2 ^ 64 = current_mcycle + max_advance_state :=
    Nat.mod_eq_of_lt hovf
  rw [hm]
  refine ⟨?_, ?_, ?_, ?_, ?_, ?_, ?_, ?_, ?_, ?_⟩
  · intro h1
    simp [run_input_loop, h1]
  · intro h1 h2
    simp [run_input_loop, HTIF_YIELD_REASON_RX_ACCEPTED, HTIF_YIELD_REASON_RX_REJECTED, HTIF_YIELD_REASON_TX_VOUCHER, HTIF_YIELD_REASON_TX_NOTICE, HTIF_YIELD_REASON_TX_REPORT, Nat.not_le.mpr h1, h2]
  · intro h1 h2 h3 h4
    simp [run_input_loop, HTIF_YIELD_REASON_RX_ACCEPTED, HTIF_YIELD_REASON_RX_REJECTED, HTIF_YIELD_REASON_TX_VOUCHER, HTIF_YIELD_REASON_TX_NOTICE, HTIF_YIELD_REASON_TX_REPORT, Nat.not_le.mpr h1, h2, h3, h4]
  · intro h1 h2 h3 h4
    have h5 : yield_reason r ≠ HTIF_YIELD_REASON_RX_REJECTED := by
      rw [h4]; decide
    simp [run_input_loop, HTIF_YIELD_REASON_RX_ACCEPTED, HTIF_YIELD_REASON_RX_REJECTED, HTIF_YIELD_REASON_TX_VOUCHER, HTIF_YIELD_REASON_TX_NOTICE, HTIF_YIELD_REASON_TX_REPORT, Nat.not_le.mpr h1, h2, h3, h4, h5]
  · intro h1 h2 h3 h4 h5
    simp only [HTIF_YIELD_REASON_RX_REJECTED] at h4
    simp only [HTIF_YIELD_REASON_RX_ACCEPTED] at h5
    simp [run_input_loop, HTIF_YIELD_REASON_RX_ACCEPTED, HTIF_YIELD_REASON_RX_REJECTED, HTIF_YIELD_REASON_TX_VOUCHER, HTIF_YIELD_REASON_TX_NOTICE, HTIF_YIELD_REASON_TX_REPORT, Nat.not_le.mpr h1, h2, h3, h4, h5]
  · intro h1 h2 h3 h4
    simp [run_input_loop, HTIF_YIELD_REASON_RX_ACCEPTED, HTIF_YIELD_REASON_RX_REJECTED, HTIF_YIELD_REASON_TX_VOUCHER, HTIF_YIELD_REASON_TX_NOTICE, HTIF_YIELD_REASON_TX_REPORT, Nat.not_le.mpr h1, h2, h3, h4]
  · intro h1 h2 h3 h4 h5
    simp [run_input_loop, HTIF_YIELD_REASON_RX_ACCEPTED, HTIF_YIELD_REASON_RX_REJECTED, HTIF_YIELD_REASON_TX_VOUCHER, HTIF_YIELD_REASON_TX_NOTICE, HTIF_YIELD_REASON_TX_REPORT, Nat.not_le.mpr h1, h2, h3, h4, h5]
  · intro h1 h2 h3 h4 h5
    have h6 : yield_reason r ≠ HTIF_YIELD_REASON_TX_VOUCHER := by
      rw [h5]; decide
    simp [run_input_loop, HTIF_YIELD_REASON_RX_ACCEPTED, HTIF_YIELD_REASON_RX_REJECTED, HTIF_YIELD_REASON_TX_VOUCHER, HTIF_YIELD_REASON_TX_NOTICE, HTIF_YIELD_REASON_TX_REPORT, Nat.not_le.mpr h1, h2, h3, h4, h5, h6]
  · intro h1 h2 h3 h4 h5
    have h6 : yield_reason r ≠ HTIF_YIELD_REASON_TX_VOUCHER := by
      rw [h5]; decide
    have h7 : yield_reason r ≠ HTIF_YIELD_REASON_TX_NOTICE := by
      rw [h5]; decide
    simp [run_input_loop, HTIF_YIELD_REASON_RX_ACCEPTED, HTIF_YIELD_REASON_RX_REJECTED, HTIF_YIELD_REASON_TX_VOUCHER, HTIF_YIELD_REASON_TX_NOTICE, HTIF_YIELD_REASON_TX_REPORT, Nat.not_le.mpr h1, h2, h3, h4, h5, h6, h7]
  · intro h1 h2 h3 h4 h5 h6 h7
    simp only [HTIF_YIELD_REASON_TX_VOUCHER] at h5
    simp only [HTIF_YIELD_REASON_TX_NOTICE] at h6
    simp only [HTIF_YIELD_REASON_TX_REPORT] at h7
    simp [run_input_loop, HTIF_YIELD_REASON_RX_ACCEPTED, HTIF_YIELD_REASON_RX_REJECTED, HTIF_YIELD_REASON_TX_VOUCHER, HTIF_YIELD_REASON_TX_NOTICE, HTIF_YIELD_REASON_TX_REPORT, Nat.not_le.mpr h1, h2, h3, h4, h5, h6, h7]

/-- Witness for C1 at concrete responses: a response at the cycle
limit is classified cycle_limit_exceeded, and an automatic TX_VOUCHER
yield appends the voucher read from the tx-buffer and continues at the
response mcycle. -/
theorem C1_witness :
    run_input_loop ((5 + 100) % 2 ^ 64) (fun _ => triv_voucher) (fun _ => triv_notice)
      (fun _ => triv_report) [some resp_cycle] st0 =
      .outcome (some .cycle_limit_exceeded) st0 ∧
    run_input_loop ((5 + 100) % 2 ^ 64) (fun _ => triv_voucher) (fun _ => triv_notice)
      (fun _ => triv_report) [some resp_voucher] st0 =
      run_input_loop ((5 + 100) % 2 ^ 64) (fun _ => triv_voucher) (fun _ => triv_notice)
        (fun _ => triv_report) []
        { st0 with vouchers := st0.vouchers ++ [triv_voucher],
                   current_mcycle := resp_voucher.mcycle } :=
  ⟨(C1_run_loop_classification 5 100 (by decide) _ _ _ resp_cycle [] st0).1 (by decide),
   ((C1_run_loop_classification 5 100 (by decide) _ _ _ resp_voucher [] st0).2.2.2.2.2.2.1
      (by decide) (by decide) (by decide) (by decide) (by decide))⟩

/-- C4: AdvanceState fails with an error and leaves the store (hence
every epoch queue) unchanged whenever the session id is unknown, the
session is locked or tainted, the active epoch index would overflow,
the request active epoch index mismatches, the epoch is finished, the
request current_input_index differs from the number of processed plus
pending inputs, the metadata length is not exactly 128 bytes, or the
payload length is at least the rx-buffer length; otherwise (the active
epoch being present in the epoch map, as every reachable session
guarantees) it appends the input to the back of the active epoch
pending queue and replies success. -/
theorem C4_advance_state (req : AdvanceStateRequest) (m : sessions_t) :
    (afind req.session_id m = none →
      (new_AdvanceState_handler req m).1 ≠ .ok ∧ (new_AdvanceState_handler req m).2 = m) ∧
    (∀ s e, afind req.session_id m = some s →
      afind s.active_epoch_index s.epochs = some e →
      ((s.session_lock = true ∨ s.tainted = true ∨ s.active_epoch_index = UINT64_MAX ∨
        req.active_epoch_index ≠ s.active_epoch_index ∨ e.state = .finished ∨
        req.current_input_index ≠ e.processed_inputs.length + e.pending_inputs.length ∨
        req.input_metadata.length ≠ INPUT_METADATA_LENGTH ∨
        s.rx_buffer_length ≤ req.input_payload.length) →
        (new_AdvanceState_handler req m).1 ≠ .ok ∧ (new_AdvanceState_handler req m).2 = m) ∧
      (¬(s.session_lock = true ∨ s.tainted = true ∨ s.active_epoch_index = UINT64_MAX ∨
        req.active_epoch_index ≠ s.active_epoch_index ∨ e.state = .finished ∨
        req.current_input_index ≠ e.processed_inputs.length + e.pending_inputs.length ∨
        req.input_metadata.length ≠ INPUT_METADATA_LENGTH ∨
        s.rx_buffer_length ≤ req.input_payload.length) →
        (new_AdvanceState_handler req m).1 = .ok ∧
        (∃ s2, afind req.session_id (new_AdvanceState_handler req m).2 = some s2 ∧
          afind s.active_epoch_index s2.epochs =
            some { e with pending_inputs := e.pending_inputs ++ [input_of_request req] }) ∧
        (∀ sid, sid ≠ req.session_id →
          afind sid (new_AdvanceState_handler req m).2 = afind sid m))) := by
  constructor
  · intro hnone
    rw [new_AdvanceState_handler, hnone]
    exact ⟨fun h => StatusCode.noConfusion h, rfl⟩
  · intro s e hs he
    constructor
    · intro hcond
      rw [new_AdvanceState_handler, hs]
      simp only
      by_cases k1 : s.active_epoch_index = UINT64_MAX
      · rw [if_pos k1]
        exact ⟨fun h => StatusCode.noConfusion h, by trivial⟩
      rw [if_neg k1]
      by_cases k2 : s.session_lock = true
      · simp only [k2, if_true]
        exact ⟨fun h => StatusCode.noConfusion h, by trivial⟩
      rw [if_neg (by simpa using k2)]
      by_cases k3 : s.tainted = true
      · simp only [k3, if_true]
        exact ⟨fun h => StatusCode.noConfusion h, by trivial⟩
      rw [if_neg (by simpa using k3)]
      by_cases k4 : s.active_epoch_index ≠ req.active_epoch_index
      · rw [if_pos k4]
        exact ⟨fun h => StatusCode.noConfusion h, by trivial⟩
      rw [if_neg k4, he]
      simp only
      by_cases k5 : e.state ≠ epoch_state.active
      · rw [if_pos k5]
        exact ⟨fun h => StatusCode.noConfusion h, by trivial⟩
      rw [if_neg k5]
      by_cases k6 : e.pending_inputs.length + e.processed_inputs.length ≠ req.current_input_index
      · rw [if_pos k6]
        exact ⟨fun h => StatusCode.noConfusion h, by trivial⟩
      rw [if_neg k6]
      by_cases k7 : req.input_metadata.length ≠ INPUT_METADATA_LENGTH
      · rw [if_pos k7]
        exact ⟨fun h => StatusCode.noConfusion h, by trivial⟩
      rw [if_neg k7]
      by_cases k8 : s.rx_buffer_length ≤ req.input_payload.length
      · rw [if_pos k8]
        exact ⟨fun h => StatusCode.noConfusion h, by trivial⟩
      rw [if_neg k8]
      exfalso
      have k5a : e.state = epoch_state.active := not_not.mp k5
      rcases hcond with h | h | h | h | h | h | h | h
      · exact k2 h
      · exact k3 h
      · exact k1 h
      · exact h (by omega)
      · rw [k5a] at h
        exact epoch_state.noConfusion h
      · exact h (by omega)
      · exact k7 h
      · exact k8 h
    · intro hcond
      rw [not_or] at hcond
      obtain ⟨g1, hcond⟩ := hcond
      rw [not_or] at hcond
      obtain ⟨g2, hcond⟩ := hcond
      rw [not_or] at hcond
      obtain ⟨g3, hcond⟩ := hcond
      rw [not_or] at hcond
      obtain ⟨g4, hcond⟩ := hcond
      rw [not_or] at hcond
      obtain ⟨g5, hcond⟩ := hcond
      rw [not_or] at hcond
      obtain ⟨g6, hcond⟩ := hcond
      rw [not_or] at hcond
      obtain ⟨g7, g8⟩ := hcond
      rw [new_AdvanceState_handler, hs]
      simp only
      rw [if_neg g3]
      rw [if_neg (by simpa using g1)]
      rw [if_neg (by simpa using g2)]
      rw [if_neg (by omega)]
      rw [he]
      simp only
      have g5a : e.state = .active := by
        rcases hst : e.state with _ | _
        · rfl
        · exact absurd hst g5
      rw [if_neg (by simp [g5a])]
      rw [if_neg (by omega)]
      rw [if_neg (by omega)]
      rw [if_neg g8]
      refine ⟨rfl, ⟨_, afind_aupdate_self req.session_id _ m (by rw [hs]; rfl), ?_⟩, ?_⟩
      · exact afind_aupdate_self s.active_epoch_index _ s.epochs (by rw [he]; rfl)
      · intro sid hsid
        exact afind_aupdate_ne req.session_id sid _ hsid m

/-- C5 counterexample: a request whose deadline
advance_state_increment is zero (and inspect_state_increment is zero)
but which is otherwise valid passes the StartSession validation, while
the claim says it must be rejected. -/
theorem C5_counterexample :
    (new_StartSession_handler cex5_req []).1 = .ok ∧
    cex5_req.server_deadline.advance_state_increment = 0 :=
  ⟨by decide, by decide⟩

/-- Witness for C5 at a concrete valid request and the empty store. -/
theorem C5_witness :
    ssreq0.session_id ≠ "" ∧
    afind ssreq0.session_id ([] : sessions_t) = none ∧
    ssreq0.has_machine = true ∧
    ssreq0.has_server_deadline = true ∧
    ssreq0.server_deadline.advance_state_increment ≤ ssreq0.server_deadline.advance_state ∧
    ssreq0.server_deadline.inspect_state_increment ≤ ssreq0.server_deadline.inspect_state ∧
    ssreq0.has_server_cycles = true ∧
    0 < ssreq0.server_cycles.advance_state_increment ∧
    ssreq0.server_cycles.advance_state_increment ≤ ssreq0.server_cycles.max_advance_state ∧
    0 < ssreq0.server_cycles.inspect_state_increment ∧
    ssreq0.server_cycles.inspect_state_increment ≤ ssreq0.server_cycles.max_inspect_state :=
  (C5_start_session_validation ssreq0 []).1 (by decide)

set_option maxRecDepth 4096 in
/-- Witness for C4: a valid request against a fresh unlocked session
is accepted. -/
theorem C4_witness :
    (new_AdvanceState_handler areq0 [("s", base_session)]).1 = .ok :=
  (((C4_advance_state areq0 [("s", base_session)]).2 base_session epoch0 rfl rfl).2
    (by decide)).1

/-- C9 (amended): on a session whose session_lock flag is set and
whose active_epoch_index is not UINT64_MAX, any concurrent
AdvanceState, FinishEpoch, EndSession, GetSessionStatus or
GetEpochStatus call naming that session fails with ABORTED and leaves
the store unchanged.  (When active_epoch_index is UINT64_MAX,
AdvanceState and FinishEpoch fail with OUT_OF_RANGE instead, because
their overflow guard precedes the lock check.) -/
theorem C9_locked_session (id : String) (m : sessions_t) (s : session_type)
    (hs : afind id m = some s) (hlock : s.session_lock = true)
    (hovf : s.active_epoch_index ≠ UINT64_MAX) :
    (∀ req : AdvanceStateRequest, req.session_id = id →
      new_AdvanceState_handler req m = (.aborted, m)) ∧
    (∀ combine, ∀ req : FinishEpochRequest, req.session_id = id →
      new_FinishEpoch_handler combine req m = (.aborted, m)) ∧
    (∀ shutdown_status, new_EndSession_handler id shutdown_status m = (.aborted, m, false)) ∧
    new_GetSessionStatus_handler id m = (.error .aborted, m) ∧
    (∀ eidx, new_GetEpochStatus_handler id eidx m = (.error .aborted, m)) := by
  refine ⟨?_, ?_, ?_, ?_, ?_⟩
  · intro req hreq
    rw [new_AdvanceState_handler, hreq, hs]
    simp only
    rw [if_neg hovf]
    simp [hlock]
  · intro combine req hreq
    rw [new_FinishEpoch_handler, hreq, hs]
    simp only
    rw [if_neg hovf]
    simp [hlock]
  · intro shutdown_status
    rw [new_EndSession_handler, hs]
    simp [hlock]
  · rw [new_GetSessionStatus_handler, hs]
    simp [hlock]
  · intro eidx
    rw [new_GetEpochStatus_handler, hs]
    simp [hlock]

/-- C9 counterexample: on a locked session whose active_epoch_index is
UINT64_MAX, AdvanceState fails with OUT_OF_RANGE, not ABORTED as the
claim states. -/
theorem C9_counterexample :
    cex9_session.session_lock = true ∧
    (new_AdvanceState_handler areq0 [("s", cex9_session)]).1 = .out_of_range ∧
    StatusCode.out_of_range ≠ StatusCode.aborted :=
  ⟨rfl, by decide, by decide⟩

/-- Witness for C9 at a concrete locked session. -/
theorem C9_witness :
    new_AdvanceState_handler areq0 [("s", wit9_session)] = (.aborted, [("s", wit9_session)]) ∧
    new_FinishEpoch_handler combA freq0 [("s", wit9_session)] = (.aborted, [("s", wit9_session)]) ∧
    new_EndSession_handler "s" .ok [("s", wit9_session)] = (.aborted, [("s", wit9_session)], false) ∧
    new_GetSessionStatus_handler "s" [("s", wit9_session)] = (.error .aborted, [("s", wit9_session)]) ∧
    new_GetEpochStatus_handler "s" 0 [("s", wit9_session)] = (.error .aborted, [("s", wit9_session)]) :=
  have h := C9_locked_session "s" [("s", wit9_session)] wit9_session rfl rfl (by decide)
  ⟨h.1 areq0 rfl, h.2.1 combA freq0 rfl, h.2.2.1 .ok, h.2.2.2.1, h.2.2.2.2 0⟩

/-- C8: the read-only RPCs never mutate any session: GetVersion and
GetStatus return the store unchanged (GetStatus reads only the session
ids), and GetSessionStatus and GetEpochStatus leave every lookup in
the store unchanged — their handlers lock the named session for the
duration of the handler (modelled by computing the response from the
locked session and writing the unlocked session back), which is why a
session that is already locked answers ABORTED. -/
theorem C8_read_only_rpcs (id : String) (eidx : Nat) (m : sessions_t) :
    (new_GetVersion_handler m).2 = m ∧
    (new_GetStatus_handler m).2 = m ∧
    (∀ sid, afind sid (new_GetSessionStatus_handler id m).2 = afind sid m) ∧
    (∀ sid, afind sid (new_GetEpochStatus_handler id eidx m).2 = afind sid m) ∧
    (∀ s, afind id m = some s → s.session_lock = true →
      (new_GetSessionStatus_handler id m).1 = .error .aborted ∧
      (new_GetEpochStatus_handler id eidx m).1 = .error .aborted) := by
  refine ⟨rfl, rfl, ?_, ?_, ?_⟩
  · intro sid
    rw [new_GetSessionStatus_handler]
    cases hfind : afind id m with
    | none => rfl
    | some s =>
      simp only
      by_cases hlock : s.session_lock = true
      · simp [hlock]
      · have hlock2 : s.session_lock = false := by simpa using hlock
        simp only [hlock2, Bool.false_eq_true, if_false]
        have hval : ({ s with session_lock := false } : session_type) = s :=
          session_set_lock_false s hlock2
        exact afind_aupdate_frame id _ m (by rw [hfind]; exact congrArg some hval.symm) sid
  · intro sid
    rw [new_GetEpochStatus_handler]
    cases hfind : afind id m with
    | none => rfl
    | some s =>
      simp only
      by_cases hlock : s.session_lock = true
      · simp [hlock]
      · have hlock2 : s.session_lock = false := by simpa using hlock
        simp only [hlock2, Bool.false_eq_true, if_false]
        cases hep : afind eidx s.epochs with
        | none => rfl
        | some e =>
          simp only
          have hval : ({ s with session_lock := false } : session_type) = s :=
            session_set_lock_false s hlock2
          exact afind_aupdate_frame id _ m (by rw [hfind]; exact congrArg some hval.symm) sid
  · intro s hfind hlock
    constructor
    · rw [new_GetSessionStatus_handler, hfind]
      simp [hlock]
    · rw [new_GetEpochStatus_handler, hfind]
      simp [hlock]

/-- Witness for C8 at a concrete store holding one locked session. -/
theorem C8_witness :
    (new_GetVersion_handler [("s", wit8_session)]).2 = [("s", wit8_session)] ∧
    (new_GetStatus_handler [("s", wit8_session)]).2 = [("s", wit8_session)] ∧
    afind "s" (new_GetSessionStatus_handler "s" [("s", wit8_session)]).2 =
      afind "s" [("s", wit8_session)] ∧
    afind "s" (new_GetEpochStatus_handler "s" 0 [("s", wit8_session)]).2 =
      afind "s" [("s", wit8_session)] ∧
    (new_GetSessionStatus_handler "s" [("s", wit8_session)]).1 = .error .aborted ∧
    (new_GetEpochStatus_handler "s" 0 [("s", wit8_session)]).1 = .error .aborted :=
  have h := C8_read_only_rpcs "s" 0 [("s", wit8_session)]
  have h5 := h.2.2.2.2 wit8_session rfl rfl
  ⟨h.1, h.2.1, h.2.2.1 "s", h.2.2.2.1 "s", h5.1, h5.2⟩

/-- C3 (amended): for a tainted session that is not session-locked and
whose active_epoch_index is not UINT64_MAX, AdvanceState and
FinishEpoch fail with DATA_LOSS and leave the store unchanged,
GetSessionStatus and GetEpochStatus (for a known epoch) succeed and
report the taint_status while leaving every lookup unchanged, and
EndSession (when no input processing is ongoing and the server
Shutdown call succeeds) succeeds, terminates the server process group,
and removes the session from the store, skipping the pending- and
processed-input checks on the active epoch.  (A locked tainted session
answers ABORTED instead of DATA_LOSS, and a tainted session whose
active_epoch_index is UINT64_MAX answers OUT_OF_RANGE from
AdvanceState and FinishEpoch.) -/
theorem C3_tainted_session (m : sessions_t) (id : String) (s : session_type)
    (hs : afind id m = some s) (htaint : s.tainted = true)
    (hlock : s.session_lock = false) (hovf : s.active_epoch_index ≠ UINT64_MAX) :
    (∀ req : AdvanceStateRequest, req.session_id = id →
      new_AdvanceState_handler req m = (.data_loss, m)) ∧
    (∀ combine, ∀ req : FinishEpochRequest, req.session_id = id →
      new_FinishEpoch_handler combine req m = (.data_loss, m)) ∧
    ((new_GetSessionStatus_handler id m).1 = .ok
        { session_id := id, active_epoch_index := s.active_epoch_index,
          epoch_index := s.epochs.map (fun p => p.1),
          taint_status := some s.taint_status } ∧
      (∀ sid, afind sid (new_GetSessionStatus_handler id m).2 = afind sid m)) ∧
    (∀ eidx e, afind eidx s.epochs = some e →
      (new_GetEpochStatus_handler id eidx m).1 = .ok
        { session_id := id, epoch_index := eidx, state := e.state,
          processed_inputs := e.processed_inputs,
          pending_input_count := e.pending_inputs.length,
          taint_status := some s.taint_status } ∧
      (∀ sid, afind sid (new_GetEpochStatus_handler id eidx m).2 = afind sid m)) ∧
    (s.processing_lock = false →
      new_EndSession_handler id .ok m = (.ok, aerase id m, true) ∧
      afind id (aerase id m) = none) := by
  have hval : ({ s with session_lock := false } : session_type) = s :=
    session_set_lock_false s hlock
  refine ⟨?_, ?_, ⟨?_, ?_⟩, ?_, ?_⟩
  · intro req hreq
    rw [new_AdvanceState_handler, hreq, hs]
    simp only
    rw [if_neg hovf]
    simp [hlock, htaint]
  · intro combine req hreq
    rw [new_FinishEpoch_handler, hreq, hs]
    simp only
    rw [if_neg hovf]
    simp [hlock, htaint]
  · rw [new_GetSessionStatus_handler, hs]
    simp [hlock, htaint]
  · intro sid
    rw [new_GetSessionStatus_handler, hs]
    simp only [hlock, Bool.false_eq_true, if_false]
    exact afind_aupdate_frame id _ m (by rw [hs]; exact congrArg some hval.symm) sid
  · intro eidx e hep
    constructor
    · rw [new_GetEpochStatus_handler, hs]
      simp only [hlock, Bool.false_eq_true, if_false]
      rw [hep]
      simp [htaint]
    · intro sid
      rw [new_GetEpochStatus_handler, hs]
      simp only [hlock, Bool.false_eq_true, if_false]
      rw [hep]
      simp only
      exact afind_aupdate_frame id _ m (by rw [hs]; exact congrArg some hval.symm) sid
  · intro hproc
    constructor
    · rw [new_EndSession_handler, hs]
      simp [hlock, htaint, hproc]
    · exact afind_aerase_self id m

/-- C3 counterexample: a session that is tainted and locked answers
ABORTED from AdvanceState, not DATA_LOSS as the claim states. -/
theorem C3_counterexample :
    cex3_session.tainted = true ∧
    (new_AdvanceState_handler areq0 [("s", cex3_session)]).1 = .aborted ∧
    StatusCode.aborted ≠ StatusCode.data_loss :=
  ⟨rfl, by decide, by decide⟩

/-- Witness for C3 at a concrete tainted unlocked session. -/
theorem C3_witness :
    new_AdvanceState_handler areq0 [("s", wit3_session)] = (.data_loss, [("s", wit3_session)]) ∧
    new_FinishEpoch_handler combA freq0 [("s", wit3_session)] = (.data_loss, [("s", wit3_session)]) ∧
    (new_GetSessionStatus_handler "s" [("s", wit3_session)]).1 = .ok
      { session_id := "s", active_epoch_index := 0, epoch_index := [0],
        taint_status := some .internal } ∧
    (new_GetEpochStatus_handler "s" 0 [("s", wit3_session)]).1 = .ok
      { session_id := "s", epoch_index := 0, state := .active, processed_inputs := [],
        pending_input_count := 0, taint_status := some .internal } ∧
    new_EndSession_handler "s" .ok [("s", wit3_session)] =
      (.ok, aerase "s" [("s", wit3_session)], true) :=
  have h := C3_tainted_session [("s", wit3_session)] "s" wit3_session rfl rfl rfl (by decide)
  ⟨h.1 areq0 rfl, h.2.1 combA freq0 rfl, h.2.2.1.1, (h.2.2.2.1 0 epoch0 rfl).1,
   (h.2.2.2.2 rfl).1⟩

/-- C6: a pipeline iteration whose run loop ends in any skip reason
appends the all-zero 32-byte hash as the new leaf of both the vouchers
tree and the notices tree and leaves the session current_mcycle
unchanged; any successful iteration never decreases current_mcycle when
the Run replies never report an mcycle below the entry mcycle (the
machine mcycle counter is monotone); hence current_mcycle is monotone
non-decreasing across the processing of all pending inputs. -/
theorem C6_skip_leaves_and_mcycle_monotone (combine : hash_t → hash_t → hash_t)
    (cycles : cycles_config_type) (t : InputTrace) (e : epoch_type) (mcycle : Nat) :
    (∀ reason st e2 mc2,
      run_input_loop ((mcycle + cycles.max_advance_state) % 2 ^ 64) t.read_voucher
        t.read_notice t.read_report t.responses
        { current_mcycle := mcycle, vouchers := [], notices := [], reports := [] } =
        .outcome (some reason) st →
      process_one_input combine cycles t e mcycle = some (e2, mc2) →
      e2.vouchers_tree = e.vouchers_tree ++ [zero_hash] ∧
      e2.notices_tree = e.notices_tree ++ [zero_hash] ∧ mc2 = mcycle) ∧
    (∀ e2 mc2,
      (∀ o ∈ t.responses, ∀ r, o = some r → mcycle ≤ r.mcycle) →
      process_one_input combine cycles t e mcycle = some (e2, mc2) → mcycle ≤ mc2) ∧
    (∀ ts e2 mc2, traces_mono cycles mcycle ts →
      process_pending_inputs combine cycles ts e mcycle = some (e2, mc2) → mcycle ≤ mc2) := by
  refine ⟨?_, ?_, ?_⟩
  · intro reason st e2 mc2 hrun h
    exact process_one_input_skip combine cycles t e mcycle reason st e2 mc2 hrun h
  · intro e2 mc2 hmono h
    exact process_one_input_accept_mcycle combine cycles t e mcycle e2 mc2 hmono h
  · intro ts e2 mc2 hmono h
    exact process_pending_inputs_mcycle_mono combine cycles ts e mcycle e2 mc2 hmono h

/-- Witness for C6: a machine that halts at mcycle 7 starting from
session mcycle 5 yields a skipped input whose processing appends the
zero hash to both trees and keeps the mcycle at 5. -/
theorem C6_witness :
    (wit6_epoch2.vouchers_tree = epoch0.vouchers_tree ++ [zero_hash] ∧
      wit6_epoch2.notices_tree = epoch0.notices_tree ++ [zero_hash] ∧ (5 : Nat) = 5) ∧
    (5 : Nat) ≤ 5 :=
  ⟨(C6_skip_leaves_and_mcycle_monotone combA cycles0 wit6_trace epoch0 5).1
      .machine_halted { current_mcycle := 5, vouchers := [], notices := [], reports := [] }
      wit6_epoch2 5 rfl rfl,
   (C6_skip_leaves_and_mcycle_monotone combA cycles0 wit6_trace epoch0 5).2.2
      [wit6_trace] wit6_epoch2 5
      ⟨by
        intro o ho r he
        have ho2 : o = some resp_halt := by
          simpa [wit6_trace] using ho
        subst ho2
        injection he with h2
        subst h2
        decide, trivial⟩
      rfl⟩

/-- C2: for every session and epoch satisfying the FinishEpoch
preconditions (session known, not locked, not tainted, no
active-epoch-index overflow, epoch known and active with empty pending
queue and matching processed-input count), a successful FinishEpoch
replies OK, stores the epoch as finish_epoch of it (state finished,
trees frozen), recomputes both in-epoch proofs of every processed
input i as the proof of leaf address i << 5 at level 5 from the final
trees — so each proof verifies against the frozen tree root — and
starts a new active empty epoch with index active_epoch_index + 1.
The tree-size bounds and the freshness of the next epoch index are the
standing invariants of reachable sessions. -/
theorem C2_finish_epoch_success (combine : hash_t → hash_t → hash_t)
    (req : FinishEpochRequest) (m : sessions_t) (s : session_type) (e : epoch_type)
    (hs : afind req.session_id m = some s)
    (hovf : s.active_epoch_index ≠ UINT64_MAX)
    (hlock : s.session_lock = false)
    (htaint : s.tainted = false)
    (he : afind req.active_epoch_index s.epochs = some e)
    (hactive : e.state = .active)
    (hpend : e.pending_inputs = [])
    (hcount : e.processed_inputs.length = req.processed_input_count)
    (hwfv : ∀ p ∈ e.processed_inputs, p.input_index < e.vouchers_tree.length)
    (hwfn : ∀ p ∈ e.processed_inputs, p.input_index < e.notices_tree.length)
    (hlenv : e.vouchers_tree.length ≤ 2 ^ (LOG2_ROOT_SIZE - LOG2_KECCAK_SIZE))
    (hlenn : e.notices_tree.length ≤ 2 ^ (LOG2_ROOT_SIZE - LOG2_KECCAK_SIZE))
    (hfresh : afind (s.active_epoch_index + 1) s.epochs = none) :
    (new_FinishEpoch_handler combine req m).1 = .ok ∧
    (∃ s2, afind req.session_id (new_FinishEpoch_handler combine req m).2 = some s2 ∧
      s2.active_epoch_index = s.active_epoch_index + 1 ∧
      afind req.active_epoch_index s2.epochs = some (finish_epoch combine e) ∧
      afind (s.active_epoch_index + 1) s2.epochs = some
        { epoch_index := s.active_epoch_index + 1, state := .active, vouchers_tree := [],
          notices_tree := [], processed_inputs := [], pending_inputs := [] }) ∧
    (finish_epoch combine e).state = .finished ∧
    (finish_epoch combine e).vouchers_tree = e.vouchers_tree ∧
    (finish_epoch combine e).notices_tree = e.notices_tree ∧
    (finish_epoch combine e).processed_inputs.length = req.processed_input_count ∧
    (∀ p ∈ (finish_epoch combine e).processed_inputs,
      p.voucher_hashes_in_epoch = tree_get_proof combine e.vouchers_tree
        (p.input_index <<< LOG2_KECCAK_SIZE) LOG2_KECCAK_SIZE ∧
      p.voucher_hashes_in_epoch.target_address = p.input_index <<< LOG2_KECCAK_SIZE ∧
      p.voucher_hashes_in_epoch.log2_target_size = LOG2_KECCAK_SIZE ∧
      p.voucher_hashes_in_epoch.root_hash =
        mroot combine (LOG2_ROOT_SIZE - LOG2_KECCAK_SIZE) e.vouchers_tree ∧
      proof_verifies combine p.voucher_hashes_in_epoch ∧
      p.notice_hashes_in_epoch = tree_get_proof combine e.notices_tree
        (p.input_index <<< LOG2_KECCAK_SIZE) LOG2_KECCAK_SIZE ∧
      p.notice_hashes_in_epoch.target_address = p.input_index <<< LOG2_KECCAK_SIZE ∧
      p.notice_hashes_in_epoch.log2_target_size = LOG2_KECCAK_SIZE ∧
      p.notice_hashes_in_epoch.root_hash =
        mroot combine (LOG2_ROOT_SIZE - LOG2_KECCAK_SIZE) e.notices_tree ∧
      proof_verifies combine p.notice_hashes_in_epoch) := by
  have hneq : req.active_epoch_index ≠ s.active_epoch_index + 1 := by
    intro hc
    rw [hc, hfresh] at he
    exact Option.noConfusion he
  have hred : new_FinishEpoch_handler combine req m =
      (.ok, aupdate req.session_id
        { start_new_epoch
            { { s with session_lock := true } with
                epochs := aupdate req.active_epoch_index (finish_epoch combine e)
                  ({ s with session_lock := true }).epochs }
          with session_lock := false } m) := by
    rw [new_FinishEpoch_handler, hs]
    simp only
    rw [if_neg hovf]
    simp only [hlock, Bool.false_eq_true, if_false, htaint]
    rw [he]
    simp only
    rw [if_neg (by simp [hactive]), if_neg (by simp [hpend]), if_neg (by simp [hcount])]
  rw [hred]
  refine ⟨rfl, ⟨_, afind_aupdate_self req.session_id _ m (by rw [hs]; rfl), rfl, ?_, ?_⟩,
    rfl, rfl, rfl, by simp [finish_epoch, hcount], ?_⟩
  · exact afind_append_left req.active_epoch_index (finish_epoch combine e) _ _
      (afind_aupdate_self req.active_epoch_index _ s.epochs (by rw [he]; rfl))
  · have hbase : afind (s.active_epoch_index + 1)
        (aupdate req.active_epoch_index (finish_epoch combine e) s.epochs) = none := by
      rw [afind_aupdate_ne req.active_epoch_index _ _ (fun hc => hneq hc.symm) s.epochs]
      exact hfresh
    exact (afind_append_right (s.active_epoch_index + 1) _
        [(s.active_epoch_index + 1,
          { epoch_index := s.active_epoch_index + 1, state := .active, vouchers_tree := [],
            notices_tree := [], processed_inputs := [], pending_inputs := [] })] hbase).trans
      (by rw [afind, if_pos rfl])
  · intro p hp
    rw [finish_epoch] at hp
    simp only [List.mem_map] at hp
    obtain ⟨q, hq, hpq⟩ := hp
    subst hpq
    refine ⟨rfl, rfl, rfl, rfl, ?_, rfl, rfl, rfl, rfl, ?_⟩
    · exact tree_get_proof_verifies combine e.vouchers_tree q.input_index (hwfv q hq) hlenv
    · exact tree_get_proof_verifies combine e.notices_tree q.input_index (hwfn q hq) hlenn

/-- Witness for C2 at a concrete session holding one finished-ready
epoch with a single processed input and one leaf in each tree. -/
theorem C2_witness :
    (new_FinishEpoch_handler combA wit2_req [("s", wit2_session)]).1 = .ok ∧
    (finish_epoch combA wit2_epoch).state = .finished ∧
    proof_verifies combA (tree_get_proof combA wit2_epoch.vouchers_tree
      (wit2_pi.input_index <<< LOG2_KECCAK_SIZE) LOG2_KECCAK_SIZE) :=
  have h := C2_finish_epoch_success combA wit2_req [("s", wit2_session)] wit2_session
    wit2_epoch rfl (by decide) rfl rfl rfl rfl rfl rfl
    (by
      intro p hp
      have hp2 : p = wit2_pi := by simpa [wit2_epoch] using hp
      subst hp2
      decide)
    (by
      intro p hp
      have hp2 : p = wit2_pi := by simpa [wit2_epoch] using hp
      subst hp2
      decide)
    (by decide) (by decide) rfl
  ⟨h.1, h.2.2.1,
   (h.2.2.2.2.2.2
      ({ wit2_pi with
          voucher_hashes_in_epoch := tree_get_proof combA wit2_epoch.vouchers_tree
            (wit2_pi.input_index <<< LOG2_KECCAK_SIZE) LOG2_KECCAK_SIZE
          notice_hashes_in_epoch := tree_get_proof combA wit2_epoch.notices_tree
            (wit2_pi.input_index <<< LOG2_KECCAK_SIZE) LOG2_KECCAK_SIZE })
      (List.mem_map_of_mem _ (List.mem_singleton.mpr rfl))).2.2.2.2.1⟩

end RollupMachineManager
